import Mathlib

/-!
Shallow embedding of the Device Manager of `src/llad/DeviceManager.cpp`
(namespace `lla`), together with the value types of `src/lla/LlaDevice.h`,
and proofs of the specification claims about them.

C++ `std::map`s are embedded as association lists with unique keys;
pointers to externally owned devices and ports are embedded as values
carrying a numeric identity (`did` / `pid`) standing for the pointer.
The mutable port -> bound-universe association (held by the external
`Universe` / `Port` objects) and the externally owned Preference Store
and Universe Store are threaded through an explicit state record.
-/

namespace LlaModel

/-- Generic association-list lookup, first matching key wins
(embeds `std::map::find`). -/
def alookup [DecidableEq α] : List (α × β) → α → Option β
  | [], _ => none
  | (k, v) :: rest, a => if k = a then some v else alookup rest a

/-- Association-list insert-or-update (embeds `std::map::operator[] =`). -/
def ainsert [DecidableEq α] : List (α × β) → α → β → List (α × β)
  | [], a, v => [(a, v)]
  | (k, w) :: rest, a, v =>
      if k = a then (a, v) :: rest else (k, w) :: ainsert rest a v

/-- Association-list erase of the first entry with the given key
(embeds `std::map::erase`; on unique-key maps this removes the key). -/
def aerase [DecidableEq α] : List (α × β) → α → List (α × β)
  | [], _ => []
  | (k, w) :: rest, a => if k = a then rest else (k, w) :: aerase rest a

/-- One signal endpoint on a device (`AbstractPort`): `pid` stands for the
C++ pointer identity, `uid` is `UniqueId()`, the persistence key. -/
structure AbstractPort where
  pid : Nat
  uid : String
  deriving DecidableEq, Repr

/-- A device (`AbstractDevice`): `did` stands for the C++ pointer identity,
`uniqueId` is `UniqueId()`, `name` is `Name()`, `ports` is `Ports()`. -/
structure AbstractDevice where
  did : Nat
  uniqueId : String
  name : String
  ports : List AbstractPort
  deriving DecidableEq, Repr

/-- `struct device_alias_pair`: an Identity Record value
`{alias : unsigned int, device : AbstractDevice*}`. -/
structure device_alias_pair where
  «alias» : Nat
  device : Option AbstractDevice
  deriving DecidableEq, Repr

/-- `DeviceManager::MISSING_DEVICE_ALIAS = 0`. -/
def MISSING_DEVICE_ALIAS : Nat := 0

/-- Modelled from the spec: `FIRST_DEVICE_ALIAS` is declared in the missing
header `DeviceManager.h`; the spec fixes aliases to start at a fixed first
value and its scenario gives the first registered device alias 1. -/
def FIRST_DEVICE_ALIAS : Nat := 1

/-- The Device Manager state together with the externally owned collaborators
it consumes: `devices` is `m_devices`, `aliasMap` is `m_alias_map`,
`nextAlias` is `m_next_device_alias`, `prefs` is `m_port_preferences`
(`none` embeds a NULL pointer); `portBinding` is the mutable
port -> bound-universe-id association read by `AbstractPort::GetUniverse` and
written by `Universe::AddPort`; `universes` is the set of universe ids alive
in the Universe Store and `uniRequests` the log of
`GetUniverseOrCreate` calls made to it. -/
structure DMState where
  devices : List (String × device_alias_pair)
  aliasMap : List (Nat × AbstractDevice)
  nextAlias : Nat
  prefs : Option (List (String × String))
  portBinding : List (Nat × Int)
  universes : List Int
  uniRequests : List Int
  deriving DecidableEq, Repr

/-- Modelled from the spec: the Preference Store collaborator's
`get(key) -> string (empty if absent)` (the `Preferences` class is not
under `src/`). -/
def prefGetValue (pm : List (String × String)) (key : String) : String :=
  (alookup pm key).getD ""

/-- Modelled from the spec: the Universe Store collaborator's
`get_or_create(universe_id)`; returns the id of the universe handed back
and records the request.  The `UniverseStore` class is not under `src/`. -/
def getUniverseOrCreate (s : DMState) (id : Int) : Int × DMState :=
  (id, { s with
          universes := if id ∈ s.universes then s.universes else s.universes ++ [id],
          uniRequests := s.uniRequests ++ [id] })

/-- `LONG_MAX` on an LP64 platform. -/
def LONG_MAX : Int := 2 ^ 63 - 1

/-- `LONG_MIN` on an LP64 platform. -/
def LONG_MIN : Int := -(2 ^ 63)

/-- C `isspace` on the default locale. -/
def isSpaceC (c : Char) : Bool :=
  c = ' ' || c = '\t' || c = '\n' || c = '\x0b' || c = '\x0c' || c = '\r'

/-- C `strtol(s, NULL, 10)` with `errno` cleared beforehand: returns the
long value and whether `errno` was set to `ERANGE`.  Per the C standard,
when no conversion can be performed the result is 0 and `errno` is left
unchanged (i.e. 0 here). -/
def strtol10 (s : String) : Int × Bool :=
  let cs := s.toList.dropWhile isSpaceC
  let signAndRest : Int × List Char :=
    match cs with
    | '-' :: rest => (-1, rest)
    | '+' :: rest => (1, rest)
    | _ => (1, cs)
  let digits := signAndRest.2.takeWhile Char.isDigit
  if digits = [] then (0, false)
  else
    let v : Int := signAndRest.1 *
      (digits.foldl (fun a c => a * 10 + ((c.toNat : Int) - ('0'.toNat : Int))) 0)
    if v > LONG_MAX then (LONG_MAX, true)
    else if v < LONG_MIN then (LONG_MIN, true)
    else (v, false)

/-- The C cast `(int)` from `long`: truncation to 32-bit two's complement. -/
def toInt32 (v : Int) : Int :=
  let m := v % (2 ^ 32)
  if m < 2 ^ 31 then m else m - 2 ^ 32

/-- `IntToString` from `lla/StringUtils.h` (not under `src/`); modelled from
the spec: the universe id is "serialized as a decimal string". -/
def IntToString (i : Int) : String := toString i

/-- The per-port body of `DeviceManager::RestoreDevicePortPatchings`
(lines 262-277): skip ports with an empty `UniqueId`, skip absent/empty
stored values, parse with `strtol`, skip when the `int` result is 0 with
`errno` set, otherwise `GetUniverseOrCreate` and bind the port. -/
def restoreLoop (s : DMState) (pm : List (String × String)) :
    List AbstractPort → DMState
  | [] => s
  | p :: rest =>
    if p.uid = "" then restoreLoop s pm rest
    else
      let uni_id := prefGetValue pm p.uid
      if uni_id = "" then restoreLoop s pm rest
      else
        let r := strtol10 uni_id
        let id := toInt32 r.1
        if id = 0 ∧ r.2 then restoreLoop s pm rest
        else
          let s1 := (getUniverseOrCreate s id).2
          let s2 := { s1 with portBinding := ainsert s1.portBinding p.pid id }
          restoreLoop s2 pm rest

/-- `DeviceManager::RestoreDevicePortPatchings` (lines 257-278). -/
def RestoreDevicePortPatchings (s : DMState) (device : Option AbstractDevice) :
    DMState :=
  match s.prefs, device with
  | some pm, some d => restoreLoop s pm d.ports
  | _, _ => s

/-- The per-port body of `DeviceManager::SaveDevicePortPatchings`
(lines 239-251): skip ports with an empty `UniqueId`; remove the key when
the port has no bound universe, otherwise store the bound universe id as a
decimal string. -/
def saveLoop (s : DMState) : List AbstractPort → DMState
  | [] => s
  | p :: rest =>
    if p.uid = "" then saveLoop s rest
    else
      match alookup s.portBinding p.pid with
      | none =>
          saveLoop { s with prefs := s.prefs.map (fun pm => aerase pm p.uid) } rest
      | some uniId =>
          saveLoop
            { s with prefs := s.prefs.map (fun pm => ainsert pm p.uid (IntToString uniId)) }
            rest

/-- `DeviceManager::SaveDevicePortPatchings` (lines 233-252). -/
def SaveDevicePortPatchings (s : DMState) (device : Option AbstractDevice) :
    DMState :=
  match s.prefs, device with
  | some _, some _d => saveLoop s _d.ports
  | _, _ => s

/-- `DeviceManager::RegisterDevice` (lines 71-108).  Returns the C++ `bool`
result paired with the state after the call. -/
def RegisterDevice (s : DMState) (device : Option AbstractDevice) :
    Bool × DMState :=
  match device with
  | none => (false, s)
  | some d =>
    if d.uniqueId = "" then (false, s)
    else
      match alookup s.devices d.uniqueId with
      | some p =>
        if p.device.isSome then (false, s)
        else
          let s1 := { s with
            devices := ainsert s.devices d.uniqueId ⟨p.«alias», some d⟩,
            aliasMap := ainsert s.aliasMap p.«alias» d }
          (true, RestoreDevicePortPatchings s1 (some d))
      | none =>
        let a := s.nextAlias
        let s1 := { s with
          nextAlias := s.nextAlias + 1,
          devices := ainsert s.devices d.uniqueId ⟨a, some d⟩,
          aliasMap := ainsert s.aliasMap a d }
        (true, RestoreDevicePortPatchings s1 (some d))

/-- `DeviceManager::UnregisterDevice(const string&)` (lines 116-134). -/
def UnregisterDeviceById (s : DMState) (device_id : String) : Bool × DMState :=
  match alookup s.devices device_id with
  | none => (false, s)
  | some p =>
    match p.device with
    | none => (false, s)
    | some d =>
      let s1 := SaveDevicePortPatchings s (some d)
      let s2 := { s1 with
        aliasMap := aerase s1.aliasMap p.«alias»,
        devices := ainsert s1.devices device_id ⟨p.«alias», none⟩ }
      (true, s2)

/-- `DeviceManager::UnregisterDevice(const AbstractDevice*)` (lines 141-150). -/
def UnregisterDeviceByRef (s : DMState) (device : Option AbstractDevice) :
    Bool × DMState :=
  match device with
  | none => (false, s)
  | some d =>
    if d.uniqueId = "" then (false, s)
    else UnregisterDeviceById s d.uniqueId

/-- `DeviceManager::DeviceCount` (lines 157-165). -/
def DeviceCount (s : DMState) : Nat :=
  (s.devices.filter (fun kp => kp.2.device.isSome)).length

/-- `DeviceManager::Devices` (lines 172-180). -/
def Devices (s : DMState) : List device_alias_pair :=
  (s.devices.filter (fun kp => kp.2.device.isSome)).map (fun kp => kp.2)

/-- `DeviceManager::GetDevice(unsigned int)` (lines 187-193). -/
def GetDeviceByAlias (s : DMState) (a : Nat) : Option AbstractDevice :=
  alookup s.aliasMap a

/-- `DeviceManager::GetDevice(const string&)` (lines 202-213). -/
def GetDeviceById (s : DMState) (unique_id : String) : device_alias_pair :=
  match alookup s.devices unique_id with
  | some p => if p.device.isSome then p else ⟨MISSING_DEVICE_ALIAS, none⟩
  | none => ⟨MISSING_DEVICE_ALIAS, none⟩

/-- The loop body of `DeviceManager::UnregisterAllDevices` (lines 221-224),
iterating over a snapshot of the entries of `m_devices` (the C++ loop only
ever rewrites the `device` field of existing entries, so the key sequence it
iterates over is fixed). -/
def unregAllLoop (s : DMState) : List (String × device_alias_pair) → DMState
  | [] => s
  | (k, p) :: rest =>
    let s1 := SaveDevicePortPatchings s p.device
    let s2 := { s1 with devices := ainsert s1.devices k ⟨p.«alias», none⟩ }
    unregAllLoop s2 rest

/-- `DeviceManager::UnregisterAllDevices` (lines 219-226). -/
def UnregisterAllDevices (s : DMState) : DMState :=
  let s1 := unregAllLoop s s.devices
  { s1 with aliasMap := [] }

/-- The state right after the `DeviceManager` constructor (lines 45-55):
empty maps, alias counter at `FIRST_DEVICE_ALIAS`; the loaded preference
file contents, the pre-existing universes and the external ports' current
bindings are parameters of the environment. -/
def initState (prefs0 : Option (List (String × String)))
    (binding0 : List (Nat × Int)) (universes0 : List Int) : DMState :=
  { devices := [], aliasMap := [], nextAlias := FIRST_DEVICE_ALIAS,
    prefs := prefs0, portBinding := binding0, universes := universes0,
    uniRequests := [] }

/-- One public Device Manager call. -/
inductive Op where
  | register (d : Option AbstractDevice)
  | unregisterById (id : String)
  | unregisterByRef (d : Option AbstractDevice)
  | unregisterAll
  deriving DecidableEq, Repr

/-- Apply one public call to the state. -/
def applyOp (s : DMState) : Op → DMState
  | .register d => (RegisterDevice s d).2
  | .unregisterById i => (UnregisterDeviceById s i).2
  | .unregisterByRef d => (UnregisterDeviceByRef s d).2
  | .unregisterAll => UnregisterAllDevices s

/-- Run a sequence of public calls. -/
def runOps (s : DMState) (ops : List Op) : DMState := ops.foldl applyOp s

end LlaModel

namespace LlaModel

/-! ### Association-list lemmas -/

theorem alookup_ainsert_self [DecidableEq α] (m : List (α × β)) (k : α) (v : β) :
    alookup (ainsert m k v) k = some v := by
  induction m with
  | nil => simp [ainsert, alookup]
  | cons hd tl ih =>
    obtain ⟨a, w⟩ := hd
    by_cases h : a = k
    · subst h; simp [ainsert, alookup]
    · simp [ainsert, alookup, h, ih]

theorem alookup_ainsert_ne [DecidableEq α] (m : List (α × β)) (k a : α) (v : β)
    (h : k ≠ a) : alookup (ainsert m k v) a = alookup m a := by
  induction m with
  | nil => simp [ainsert, alookup, h]
  | cons hd tl ih =>
    obtain ⟨b, w⟩ := hd
    by_cases h2 : b = k
    · subst h2; simp [ainsert, alookup, h]
    · by_cases h3 : b = a
      · subst h3
        simp [ainsert, alookup, h2]
      · simp [ainsert, alookup, h2, h3, ih]

theorem alookup_aerase_ne [DecidableEq α] (m : List (α × β)) (k a : α)
    (h : k ≠ a) : alookup (aerase m k) a = alookup m a := by
  induction m with
  | nil => simp [aerase]
  | cons hd tl ih =>
    obtain ⟨b, w⟩ := hd
    by_cases h2 : b = k
    · subst h2; simp [aerase, alookup, h]
    · by_cases h3 : b = a
      · subst h3
        simp [aerase, alookup, h2]
      · simp [aerase, alookup, h2, h3, ih]

theorem alookup_eq_none_of_not_mem [DecidableEq α] (m : List (α × β)) (a : α)
    (h : a ∉ m.map Prod.fst) : alookup m a = none := by
  induction m with
  | nil => rfl
  | cons hd tl ih =>
    obtain ⟨b, w⟩ := hd
    simp only [List.map_cons, List.mem_cons, not_or] at h
    have hba : ¬ b = a := fun hc => h.1 hc.symm
    simp [alookup, hba, ih h.2]

theorem mem_of_alookup_eq_some [DecidableEq α] {m : List (α × β)} {a : α} {v : β}
    (h : alookup m a = some v) : (a, v) ∈ m := by
  induction m with
  | nil => simp [alookup] at h
  | cons hd tl ih =>
    obtain ⟨b, w⟩ := hd
    by_cases h2 : b = a
    · subst h2
      simp [alookup] at h
      subst h
      exact List.mem_cons_self _ _
    · simp only [alookup, if_neg h2] at h
      exact List.mem_cons_of_mem _ (ih h)

theorem alookup_eq_some_of_mem_nodup [DecidableEq α] {m : List (α × β)} {a : α} {v : β}
    (hnd : (m.map Prod.fst).Nodup) (h : (a, v) ∈ m) : alookup m a = some v := by
  induction m with
  | nil => simp at h
  | cons hd tl ih =>
    obtain ⟨b, w⟩ := hd
    simp only [List.map_cons, List.nodup_cons] at hnd
    rcases List.mem_cons.mp h with h1 | h1
    · injection h1 with h1a h1b
      subst h1a; subst h1b
      simp [alookup]
    · have hb : b ≠ a := by
        rintro rfl
        exact hnd.1 (List.mem_map.mpr ⟨(b, v), h1, rfl⟩)
      simp [alookup, hb, ih hnd.2 h1]

theorem alookup_aerase_self [DecidableEq α] (m : List (α × β)) (k : α)
    (hnd : (m.map Prod.fst).Nodup) : alookup (aerase m k) k = none := by
  induction m with
  | nil => rfl
  | cons hd tl ih =>
    obtain ⟨b, w⟩ := hd
    simp only [List.map_cons, List.nodup_cons] at hnd
    by_cases h2 : b = k
    · subst h2
      simpa [aerase] using alookup_eq_none_of_not_mem tl b hnd.1
    · simp [aerase, alookup, h2, ih hnd.2]

theorem keys_ainsert [DecidableEq α] (m : List (α × β)) (k : α) (v : β) :
    (ainsert m k v).map Prod.fst =
      if k ∈ m.map Prod.fst then m.map Prod.fst else m.map Prod.fst ++ [k] := by
  induction m with
  | nil => simp [ainsert]
  | cons hd tl ih =>
    obtain ⟨b, w⟩ := hd
    by_cases h2 : b = k
    · subst h2; simp [ainsert]
    · have h3 : ¬ k = b := fun hc => h2 hc.symm
      by_cases h4 : k ∈ tl.map Prod.fst <;>
        simp [ainsert, h2, h3, h4, ih]

theorem nodup_keys_ainsert [DecidableEq α] (m : List (α × β)) (k : α) (v : β)
    (hnd : (m.map Prod.fst).Nodup) : ((ainsert m k v).map Prod.fst).Nodup := by
  rw [keys_ainsert]
  by_cases h : k ∈ m.map Prod.fst
  · simpa [h]
  · simpa [h] using List.Nodup.append hnd (List.nodup_singleton k)
      (by simpa [List.disjoint_singleton] using h)

theorem aerase_sublist [DecidableEq α] (m : List (α × β)) (k : α) :
    (aerase m k).Sublist m := by
  induction m with
  | nil => simp [aerase]
  | cons hd tl ih =>
    obtain ⟨b, w⟩ := hd
    by_cases h2 : b = k
    · simp [aerase, h2]
    · simpa [aerase, h2] using List.Sublist.cons₂ (b, w) ih

theorem nodup_keys_aerase [DecidableEq α] (m : List (α × β)) (k : α)
    (hnd : (m.map Prod.fst).Nodup) : ((aerase m k).map Prod.fst).Nodup :=
  List.Nodup.sublist (List.Sublist.map Prod.fst (aerase_sublist m k)) hnd

/-! ### Frame lemmas: the patch-saving and patch-restoring loops touch
only the state components they are about. -/

theorem saveLoop_eq (l : List AbstractPort) (s : DMState) :
    saveLoop s l = { s with prefs := (saveLoop s l).prefs } := by
  induction l generalizing s with
  | nil => rfl
  | cons p rest ih =>
    by_cases h : p.uid = ""
    · simp only [saveLoop, if_pos h]
      exact ih s
    · simp only [saveLoop, if_neg h]
      cases hb : alookup s.portBinding p.pid with
      | none => exact ih _
      | some uniId => exact ih _

theorem restoreLoop_eq (l : List AbstractPort) (pm : List (String × String))
    (s : DMState) :
    restoreLoop s pm l = { s with
      portBinding := (restoreLoop s pm l).portBinding,
      universes := (restoreLoop s pm l).universes,
      uniRequests := (restoreLoop s pm l).uniRequests } := by
  induction l generalizing s with
  | nil => rfl
  | cons p rest ih =>
    by_cases h : p.uid = ""
    · simp only [restoreLoop, if_pos h]
      exact ih s
    · simp only [restoreLoop, if_neg h]
      by_cases h2 : prefGetValue pm p.uid = ""
      · simp only [if_pos h2]
        exact ih s
      · simp only [if_neg h2]
        by_cases h3 : toInt32 (strtol10 (prefGetValue pm p.uid)).1 = 0 ∧
            (strtol10 (prefGetValue pm p.uid)).2
        · simp only [if_pos h3]
          exact ih s
        · simp only [if_neg h3]
          exact ih _

theorem SaveDevicePortPatchings_eq (s : DMState) (d : Option AbstractDevice) :
    SaveDevicePortPatchings s d =
      { s with prefs := (SaveDevicePortPatchings s d).prefs } := by
  obtain ⟨dv, am, na, pf, pb, un, ur⟩ := s
  cases pf with
  | none => cases d <;> rfl
  | some pm =>
    cases d with
    | none => rfl
    | some dev => exact saveLoop_eq dev.ports _

theorem RestoreDevicePortPatchings_eq (s : DMState) (d : Option AbstractDevice) :
    RestoreDevicePortPatchings s d = { s with
      portBinding := (RestoreDevicePortPatchings s d).portBinding,
      universes := (RestoreDevicePortPatchings s d).universes,
      uniRequests := (RestoreDevicePortPatchings s d).uniRequests } := by
  obtain ⟨dv, am, na, pf, pb, un, ur⟩ := s
  cases pf with
  | none => cases d <;> rfl
  | some pm =>
    cases d with
    | none => rfl
    | some dev => exact restoreLoop_eq dev.ports pm _

end LlaModel

namespace LlaModel

theorem Save_devices (s : DMState) (d : Option AbstractDevice) :
    (SaveDevicePortPatchings s d).devices = s.devices := by
  rw [SaveDevicePortPatchings_eq s d]

theorem Save_aliasMap (s : DMState) (d : Option AbstractDevice) :
    (SaveDevicePortPatchings s d).aliasMap = s.aliasMap := by
  rw [SaveDevicePortPatchings_eq s d]

theorem Save_nextAlias (s : DMState) (d : Option AbstractDevice) :
    (SaveDevicePortPatchings s d).nextAlias = s.nextAlias := by
  rw [SaveDevicePortPatchings_eq s d]

theorem Save_portBinding (s : DMState) (d : Option AbstractDevice) :
    (SaveDevicePortPatchings s d).portBinding = s.portBinding := by
  rw [SaveDevicePortPatchings_eq s d]

theorem Restore_devices (s : DMState) (d : Option AbstractDevice) :
    (RestoreDevicePortPatchings s d).devices = s.devices := by
  rw [RestoreDevicePortPatchings_eq s d]

theorem Restore_aliasMap (s : DMState) (d : Option AbstractDevice) :
    (RestoreDevicePortPatchings s d).aliasMap = s.aliasMap := by
  rw [RestoreDevicePortPatchings_eq s d]

theorem Restore_nextAlias (s : DMState) (d : Option AbstractDevice) :
    (RestoreDevicePortPatchings s d).nextAlias = s.nextAlias := by
  rw [RestoreDevicePortPatchings_eq s d]

theorem Restore_prefs (s : DMState) (d : Option AbstractDevice) :
    (RestoreDevicePortPatchings s d).prefs = s.prefs := by
  rw [RestoreDevicePortPatchings_eq s d]

/-! ### Case equations for the public operations -/

theorem RegisterDevice_noneDev (s : DMState) :
    RegisterDevice s none = (false, s) := rfl

theorem RegisterDevice_emptyId (s : DMState) (d : AbstractDevice)
    (h : d.uniqueId = "") : RegisterDevice s (some d) = (false, s) := by
  simp [RegisterDevice, h]

theorem RegisterDevice_dup (s : DMState) (d : AbstractDevice)
    (p : device_alias_pair) (hl : alookup s.devices d.uniqueId = some p)
    (hp : p.device.isSome) : RegisterDevice s (some d) = (false, s) := by
  by_cases h : d.uniqueId = ""
  · simp [RegisterDevice, h]
  · simp [RegisterDevice, h, hl, hp]

theorem RegisterDevice_reuse (s : DMState) (d : AbstractDevice) (a : Nat)
    (h : d.uniqueId ≠ "") (hl : alookup s.devices d.uniqueId = some ⟨a, none⟩) :
    RegisterDevice s (some d) =
      (true, RestoreDevicePortPatchings
        { s with devices := ainsert s.devices d.uniqueId ⟨a, some d⟩,
                 aliasMap := ainsert s.aliasMap a d } (some d)) := by
  simp [RegisterDevice, h, hl]

theorem RegisterDevice_new (s : DMState) (d : AbstractDevice)
    (h : d.uniqueId ≠ "") (hl : alookup s.devices d.uniqueId = none) :
    RegisterDevice s (some d) =
      (true, RestoreDevicePortPatchings
        { s with nextAlias := s.nextAlias + 1,
                 devices := ainsert s.devices d.uniqueId ⟨s.nextAlias, some d⟩,
                 aliasMap := ainsert s.aliasMap s.nextAlias d } (some d)) := by
  simp [RegisterDevice, h, hl]

theorem UnregisterDeviceById_absent (s : DMState) (i : String)
    (h : alookup s.devices i = none) : UnregisterDeviceById s i = (false, s) := by
  simp [UnregisterDeviceById, h]

theorem UnregisterDeviceById_inactive (s : DMState) (i : String) (a : Nat)
    (h : alookup s.devices i = some ⟨a, none⟩) :
    UnregisterDeviceById s i = (false, s) := by
  simp [UnregisterDeviceById, h]

theorem UnregisterDeviceById_active (s : DMState) (i : String) (a : Nat)
    (d : AbstractDevice) (h : alookup s.devices i = some ⟨a, some d⟩) :
    UnregisterDeviceById s i =
      (true, { SaveDevicePortPatchings s (some d) with
               aliasMap := aerase (SaveDevicePortPatchings s (some d)).aliasMap a,
               devices := ainsert (SaveDevicePortPatchings s (some d)).devices i
                 ⟨a, none⟩ }) := by
  simp [UnregisterDeviceById, h]

/-! ### Behaviour of the `UnregisterAllDevices` loop -/

theorem unregAllLoop_aliasMap (l : List (String × device_alias_pair))
    (s : DMState) : (unregAllLoop s l).aliasMap = s.aliasMap := by
  induction l generalizing s with
  | nil => rfl
  | cons hd rest ih =>
    obtain ⟨k, p⟩ := hd
    simp only [unregAllLoop]
    rw [ih]
    simp [Save_aliasMap]

theorem unregAllLoop_nextAlias (l : List (String × device_alias_pair))
    (s : DMState) : (unregAllLoop s l).nextAlias = s.nextAlias := by
  induction l generalizing s with
  | nil => rfl
  | cons hd rest ih =>
    obtain ⟨k, p⟩ := hd
    simp only [unregAllLoop]
    rw [ih]
    simp [Save_nextAlias]

theorem unregAllLoop_portBinding (l : List (String × device_alias_pair))
    (s : DMState) : (unregAllLoop s l).portBinding = s.portBinding := by
  induction l generalizing s with
  | nil => rfl
  | cons hd rest ih =>
    obtain ⟨k, p⟩ := hd
    simp only [unregAllLoop]
    rw [ih]
    simp [Save_portBinding]

theorem unregAllLoop_devices_not_mem (l : List (String × device_alias_pair))
    (s : DMState) (u : String) (h : u ∉ l.map Prod.fst) :
    alookup (unregAllLoop s l).devices u = alookup s.devices u := by
  induction l generalizing s with
  | nil => rfl
  | cons hd rest ih =>
    obtain ⟨k, p⟩ := hd
    simp only [List.map_cons, List.mem_cons, not_or] at h
    simp only [unregAllLoop]
    rw [ih _ h.2]
    simp only [Save_devices]
    exact alookup_ainsert_ne _ k u _ (fun hc => h.1 hc.symm)

theorem unregAllLoop_devices_mem (l : List (String × device_alias_pair))
    (s : DMState) (u : String) (p : device_alias_pair)
    (hnd : (l.map Prod.fst).Nodup) (h : (u, p) ∈ l) :
    alookup (unregAllLoop s l).devices u = some ⟨p.«alias», none⟩ := by
  induction l generalizing s with
  | nil => simp at h
  | cons hd rest ih =>
    obtain ⟨k, q⟩ := hd
    simp only [List.map_cons, List.nodup_cons] at hnd
    rcases List.mem_cons.mp h with h1 | h1
    · injection h1 with h1a h1b
      subst h1a; subst h1b
      simp only [unregAllLoop]
      rw [unregAllLoop_devices_not_mem _ _ _ hnd.1]
      simp only [Save_devices]
      exact alookup_ainsert_self _ _ _
    · exact ih _ hnd.2 h1

theorem unregAllLoop_devices_keys_nodup (l : List (String × device_alias_pair))
    (s : DMState) (hnd : (s.devices.map Prod.fst).Nodup) :
    ((unregAllLoop s l).devices.map Prod.fst).Nodup := by
  induction l generalizing s with
  | nil => exact hnd
  | cons hd rest ih =>
    obtain ⟨k, p⟩ := hd
    simp only [unregAllLoop]
    refine ih _ ?_
    simp only [Save_devices]
    exact nodup_keys_ainsert _ _ _ hnd

end LlaModel

namespace LlaModel

theorem alookup_isSome_of_mem_keys [DecidableEq α] {m : List (α × β)} {a : α}
    (h : a ∈ m.map Prod.fst) : (alookup m a).isSome := by
  induction m with
  | nil => simp at h
  | cons hd tl ih =>
    obtain ⟨b, w⟩ := hd
    by_cases h2 : b = a
    · simp [alookup, h2]
    · simp only [List.map_cons, List.mem_cons] at h
      rcases h with h | h
      · exact absurd h.symm h2
      · simp [alookup, h2, ih h]

theorem not_mem_keys_of_alookup_eq_none [DecidableEq α] {m : List (α × β)}
    {a : α} (h : alookup m a = none) : a ∉ m.map Prod.fst := by
  intro hmem
  have := alookup_isSome_of_mem_keys hmem
  rw [h] at this
  simp at this

/-- The invariant of every reachable Device Manager state: identity keys
and alias keys are duplicate-free, aliases lie in
`[FIRST_DEVICE_ALIAS, m_next_device_alias)`, distinct unique ids hold
distinct aliases, and the Alias Index is exactly the live view of the
Identity Records. -/
structure Inv (s : DMState) : Prop where
  devKeysNodup : (s.devices.map Prod.fst).Nodup
  aliasKeysNodup : (s.aliasMap.map Prod.fst).Nodup
  nextGe : FIRST_DEVICE_ALIAS ≤ s.nextAlias
  aliasBounds : ∀ u p, alookup s.devices u = some p →
    FIRST_DEVICE_ALIAS ≤ p.«alias» ∧ p.«alias» < s.nextAlias
  aliasInj : ∀ u1 u2 p1 p2, alookup s.devices u1 = some p1 →
    alookup s.devices u2 = some p2 → p1.«alias» = p2.«alias» → u1 = u2
  aliasMapSpec : ∀ a d, alookup s.aliasMap a = some d ↔
    ∃ u p, alookup s.devices u = some p ∧ p.«alias» = a ∧ p.device = some d

theorem Inv_of_eq_parts (s t : DMState) (h : Inv s) (hd : t.devices = s.devices)
    (ha : t.aliasMap = s.aliasMap) (hn : t.nextAlias = s.nextAlias) : Inv t := by
  refine ⟨?_, ?_, ?_, ?_, ?_, ?_⟩ <;> simp only [hd, ha, hn] <;>
    first
      | exact h.devKeysNodup
      | exact h.aliasKeysNodup
      | exact h.nextGe
      | exact h.aliasBounds
      | exact h.aliasInj
      | exact h.aliasMapSpec

theorem Inv_restore (s : DMState) (d : Option AbstractDevice) (h : Inv s) :
    Inv (RestoreDevicePortPatchings s d) :=
  Inv_of_eq_parts s _ h (Restore_devices s d) (Restore_aliasMap s d)
    (Restore_nextAlias s d)

theorem Inv_reuse_core (s : DMState) (d : AbstractDevice) (a : Nat) (h : Inv s)
    (hl : alookup s.devices d.uniqueId = some ⟨a, none⟩) :
    Inv { s with devices := ainsert s.devices d.uniqueId ⟨a, some d⟩,
                 aliasMap := ainsert s.aliasMap a d } := by
  refine ⟨nodup_keys_ainsert _ _ _ h.devKeysNodup,
          nodup_keys_ainsert _ _ _ h.aliasKeysNodup, h.nextGe, ?_, ?_, ?_⟩
  · intro u p hp
    by_cases hu : d.uniqueId = u
    · subst hu
      rw [alookup_ainsert_self] at hp
      cases hp
      have := h.aliasBounds _ _ hl
      simpa using this
    · rw [alookup_ainsert_ne _ _ _ _ hu] at hp
      exact h.aliasBounds _ _ hp
  · intro u1 u2 p1 p2 hp1 hp2 hEq
    by_cases hu1 : d.uniqueId = u1 <;> by_cases hu2 : d.uniqueId = u2
    · rw [← hu1, ← hu2]
    · subst hu1
      rw [alookup_ainsert_self] at hp1
      cases hp1
      rw [alookup_ainsert_ne _ _ _ _ hu2] at hp2
      exact h.aliasInj d.uniqueId u2 ⟨a, none⟩ p2 hl hp2 hEq
    · subst hu2
      rw [alookup_ainsert_self] at hp2
      cases hp2
      rw [alookup_ainsert_ne _ _ _ _ hu1] at hp1
      exact h.aliasInj u1 d.uniqueId p1 ⟨a, none⟩ hp1 hl hEq
    · rw [alookup_ainsert_ne _ _ _ _ hu1] at hp1
      rw [alookup_ainsert_ne _ _ _ _ hu2] at hp2
      exact h.aliasInj _ _ _ _ hp1 hp2 hEq
  · intro a' d'
    by_cases ha : a = a'
    · subst ha
      rw [alookup_ainsert_self]
      constructor
      · intro hEq2
        injection hEq2 with hEq2
        subst hEq2
        exact ⟨d.uniqueId, ⟨a, some d⟩, alookup_ainsert_self _ _ _, rfl, rfl⟩
      · rintro ⟨u, p, hp, hpa, hpd⟩
        by_cases hu : d.uniqueId = u
        · subst hu
          rw [alookup_ainsert_self] at hp
          cases hp
          exact hpd
        · rw [alookup_ainsert_ne _ _ _ _ hu] at hp
          exact absurd (h.aliasInj u d.uniqueId p ⟨a, none⟩ hp hl hpa).symm hu
    · rw [alookup_ainsert_ne _ _ _ _ ha]
      rw [h.aliasMapSpec a' d']
      constructor
      · rintro ⟨u, p, hp, hpa, hpd⟩
        by_cases hu : d.uniqueId = u
        · subst hu
          rw [hl] at hp
          cases hp
          cases hpd
        · exact ⟨u, p, by rw [alookup_ainsert_ne _ _ _ _ hu]; exact hp, hpa, hpd⟩
      · rintro ⟨u, p, hp, hpa, hpd⟩
        by_cases hu : d.uniqueId = u
        · subst hu
          rw [alookup_ainsert_self] at hp
          cases hp
          exact absurd hpa ha
        · rw [alookup_ainsert_ne _ _ _ _ hu] at hp
          exact ⟨u, p, hp, hpa, hpd⟩

end LlaModel

namespace LlaModel

theorem Inv_new_core (s : DMState) (d : AbstractDevice) (h : Inv s)
    (hl : alookup s.devices d.uniqueId = none) :
    Inv { s with nextAlias := s.nextAlias + 1,
                 devices := ainsert s.devices d.uniqueId ⟨s.nextAlias, some d⟩,
                 aliasMap := ainsert s.aliasMap s.nextAlias d } := by
  refine ⟨nodup_keys_ainsert _ _ _ h.devKeysNodup,
          nodup_keys_ainsert _ _ _ h.aliasKeysNodup,
          Nat.le_succ_of_le h.nextGe, ?_, ?_, ?_⟩
  · intro u p hp
    by_cases hu : d.uniqueId = u
    · subst hu
      rw [alookup_ainsert_self] at hp
      cases hp
      exact ⟨h.nextGe, Nat.lt_succ_self _⟩
    · rw [alookup_ainsert_ne _ _ _ _ hu] at hp
      have := h.aliasBounds _ _ hp
      exact ⟨this.1, Nat.lt_succ_of_lt this.2⟩
  · intro u1 u2 p1 p2 hp1 hp2 hEq
    by_cases hu1 : d.uniqueId = u1 <;> by_cases hu2 : d.uniqueId = u2
    · rw [← hu1, ← hu2]
    · subst hu1
      rw [alookup_ainsert_self] at hp1
      cases hp1
      rw [alookup_ainsert_ne _ _ _ _ hu2] at hp2
      have := (h.aliasBounds _ _ hp2).2
      rw [← hEq] at this
      exact absurd this (Nat.lt_irrefl _)
    · subst hu2
      rw [alookup_ainsert_self] at hp2
      cases hp2
      rw [alookup_ainsert_ne _ _ _ _ hu1] at hp1
      have := (h.aliasBounds _ _ hp1).2
      rw [hEq] at this
      exact absurd this (Nat.lt_irrefl _)
    · rw [alookup_ainsert_ne _ _ _ _ hu1] at hp1
      rw [alookup_ainsert_ne _ _ _ _ hu2] at hp2
      exact h.aliasInj _ _ _ _ hp1 hp2 hEq
  · intro a' d'
    by_cases ha : s.nextAlias = a'
    · subst ha
      rw [alookup_ainsert_self]
      constructor
      · intro hEq2
        injection hEq2 with hEq2
        subst hEq2
        exact ⟨d.uniqueId, ⟨s.nextAlias, some d⟩, alookup_ainsert_self _ _ _,
          rfl, rfl⟩
      · rintro ⟨u, p, hp, hpa, hpd⟩
        by_cases hu : d.uniqueId = u
        · subst hu
          rw [alookup_ainsert_self] at hp
          cases hp
          exact hpd
        · rw [alookup_ainsert_ne _ _ _ _ hu] at hp
          have := (h.aliasBounds _ _ hp).2
          rw [hpa] at this
          exact absurd this (Nat.lt_irrefl _)
    · rw [alookup_ainsert_ne _ _ _ _ ha]
      rw [h.aliasMapSpec a' d']
      constructor
      · rintro ⟨u, p, hp, hpa, hpd⟩
        by_cases hu : d.uniqueId = u
        · subst hu
          rw [hl] at hp
          cases hp
        · exact ⟨u, p, by rw [alookup_ainsert_ne _ _ _ _ hu]; exact hp, hpa, hpd⟩
      · rintro ⟨u, p, hp, hpa, hpd⟩
        by_cases hu : d.uniqueId = u
        · subst hu
          rw [alookup_ainsert_self] at hp
          cases hp
          exact absurd hpa ha
        · rw [alookup_ainsert_ne _ _ _ _ hu] at hp
          exact ⟨u, p, hp, hpa, hpd⟩

theorem Inv_unreg_core (s : DMState) (i : String) (a : Nat)
    (d : AbstractDevice) (h : Inv s)
    (hl : alookup s.devices i = some ⟨a, some d⟩) :
    Inv { s with aliasMap := aerase s.aliasMap a,
                 devices := ainsert s.devices i ⟨a, none⟩ } := by
  refine ⟨nodup_keys_ainsert _ _ _ h.devKeysNodup,
          nodup_keys_aerase _ _ h.aliasKeysNodup, h.nextGe, ?_, ?_, ?_⟩
  · intro u p hp
    by_cases hu : i = u
    · subst hu
      rw [alookup_ainsert_self] at hp
      cases hp
      have := h.aliasBounds _ _ hl
      simpa using this
    · rw [alookup_ainsert_ne _ _ _ _ hu] at hp
      exact h.aliasBounds _ _ hp
  · intro u1 u2 p1 p2 hp1 hp2 hEq
    by_cases hu1 : i = u1 <;> by_cases hu2 : i = u2
    · rw [← hu1, ← hu2]
    · subst hu1
      rw [alookup_ainsert_self] at hp1
      cases hp1
      rw [alookup_ainsert_ne _ _ _ _ hu2] at hp2
      exact h.aliasInj i u2 ⟨a, some d⟩ p2 hl hp2 hEq
    · subst hu2
      rw [alookup_ainsert_self] at hp2
      cases hp2
      rw [alookup_ainsert_ne _ _ _ _ hu1] at hp1
      exact h.aliasInj u1 i p1 ⟨a, some d⟩ hp1 hl hEq
    · rw [alookup_ainsert_ne _ _ _ _ hu1] at hp1
      rw [alookup_ainsert_ne _ _ _ _ hu2] at hp2
      exact h.aliasInj _ _ _ _ hp1 hp2 hEq
  · intro a' d'
    by_cases ha : a = a'
    · subst ha
      rw [alookup_aerase_self _ _ h.aliasKeysNodup]
      constructor
      · intro hc
        cases hc
      · rintro ⟨u, p, hp, hpa, hpd⟩
        by_cases hu : i = u
        · subst hu
          rw [alookup_ainsert_self] at hp
          cases hp
          cases hpd
        · rw [alookup_ainsert_ne _ _ _ _ hu] at hp
          exact absurd (h.aliasInj u i p ⟨a, some d⟩ hp hl hpa).symm hu
    · rw [alookup_aerase_ne _ _ _ ha]
      rw [h.aliasMapSpec a' d']
      constructor
      · rintro ⟨u, p, hp, hpa, hpd⟩
        by_cases hu : i = u
        · subst hu
          rw [hl] at hp
          cases hp
          exact absurd hpa ha
        · exact ⟨u, p, by rw [alookup_ainsert_ne _ _ _ _ hu]; exact hp, hpa, hpd⟩
      · rintro ⟨u, p, hp, hpa, hpd⟩
        by_cases hu : i = u
        · subst hu
          rw [alookup_ainsert_self] at hp
          cases hp
          cases hpd
        · rw [alookup_ainsert_ne _ _ _ _ hu] at hp
          exact ⟨u, p, hp, hpa, hpd⟩

/-- After `UnregisterAllDevices`, every Identity Record survives with the
same alias and a cleared device field. -/
theorem UnregisterAllDevices_lookup (s : DMState)
    (hnd : (s.devices.map Prod.fst).Nodup) (u : String) :
    alookup (UnregisterAllDevices s).devices u =
      (alookup s.devices u).map (fun p => ⟨p.«alias», none⟩) := by
  unfold UnregisterAllDevices
  cases hc : alookup s.devices u with
  | none =>
    have hnm : u ∉ s.devices.map Prod.fst := not_mem_keys_of_alookup_eq_none hc
    simp [unregAllLoop_devices_not_mem s.devices s u hnm, hc]
  | some p =>
    have hm : (u, p) ∈ s.devices := mem_of_alookup_eq_some hc
    simp [unregAllLoop_devices_mem s.devices s u p hnd hm]

theorem Inv_unregAll (s : DMState) (h : Inv s) : Inv (UnregisterAllDevices s) := by
  have hax : (UnregisterAllDevices s).aliasMap = [] := rfl
  have hnx : (UnregisterAllDevices s).nextAlias = s.nextAlias :=
    unregAllLoop_nextAlias s.devices s
  refine ⟨?_, ?_, ?_, ?_, ?_, ?_⟩
  · exact unregAllLoop_devices_keys_nodup s.devices s h.devKeysNodup
  · rw [hax]; exact List.nodup_nil
  · rw [hnx]; exact h.nextGe
  · intro u p hp
    rw [UnregisterAllDevices_lookup s h.devKeysNodup u] at hp
    cases hc : alookup s.devices u with
    | none => rw [hc] at hp; cases hp
    | some q =>
      rw [hc] at hp
      cases hp
      rw [hnx]
      have := h.aliasBounds _ _ hc
      simpa using this
  · intro u1 u2 p1 p2 hp1 hp2 hEq
    rw [UnregisterAllDevices_lookup s h.devKeysNodup u1] at hp1
    rw [UnregisterAllDevices_lookup s h.devKeysNodup u2] at hp2
    cases hc1 : alookup s.devices u1 with
    | none => rw [hc1] at hp1; cases hp1
    | some q1 =>
      cases hc2 : alookup s.devices u2 with
      | none => rw [hc2] at hp2; cases hp2
      | some q2 =>
        rw [hc1] at hp1
        rw [hc2] at hp2
        cases hp1
        cases hp2
        exact h.aliasInj u1 u2 q1 q2 hc1 hc2 (by simpa using hEq)
  · intro a d
    rw [hax]
    constructor
    · intro hc
      cases hc
    · rintro ⟨u, p, hp, hpa, hpd⟩
      rw [UnregisterAllDevices_lookup s h.devKeysNodup u] at hp
      cases hc : alookup s.devices u with
      | none => rw [hc] at hp; cases hp
      | some q =>
        rw [hc] at hp
        cases hp
        cases hpd

end LlaModel

namespace LlaModel

theorem Inv_save (s : DMState) (d : Option AbstractDevice) (h : Inv s) :
    Inv (SaveDevicePortPatchings s d) :=
  Inv_of_eq_parts s _ h (Save_devices s d) (Save_aliasMap s d)
    (Save_nextAlias s d)

theorem Inv_register (s : DMState) (d : Option AbstractDevice) (h : Inv s) :
    Inv (RegisterDevice s d).2 := by
  cases d with
  | none => exact h
  | some dd =>
    by_cases h1 : dd.uniqueId = ""
    · rw [RegisterDevice_emptyId s dd h1]
      exact h
    · cases hl : alookup s.devices dd.uniqueId with
      | none =>
        rw [RegisterDevice_new s dd h1 hl]
        exact Inv_restore _ _ (Inv_new_core s dd h hl)
      | some p =>
        obtain ⟨pa, pdev⟩ := p
        cases pdev with
        | none =>
          rw [RegisterDevice_reuse s dd pa h1 hl]
          exact Inv_restore _ _ (Inv_reuse_core s dd pa h hl)
        | some d0 =>
          rw [RegisterDevice_dup s dd ⟨pa, some d0⟩ hl (by simp)]
          exact h

theorem Inv_unregById (s : DMState) (i : String) (h : Inv s) :
    Inv (UnregisterDeviceById s i).2 := by
  cases hl : alookup s.devices i with
  | none =>
    rw [UnregisterDeviceById_absent s i hl]
    exact h
  | some p =>
    obtain ⟨pa, pdev⟩ := p
    cases pdev with
    | none =>
      rw [UnregisterDeviceById_inactive s i pa hl]
      exact h
    | some d =>
      rw [UnregisterDeviceById_active s i pa d hl]
      have ht : Inv (SaveDevicePortPatchings s (some d)) := Inv_save s (some d) h
      have hl2 : alookup (SaveDevicePortPatchings s (some d)).devices i =
          some ⟨pa, some d⟩ := by rw [Save_devices]; exact hl
      exact Inv_unreg_core _ i pa d ht hl2

theorem Inv_unregByRef (s : DMState) (d : Option AbstractDevice) (h : Inv s) :
    Inv (UnregisterDeviceByRef s d).2 := by
  cases d with
  | none => exact h
  | some dd =>
    by_cases h1 : dd.uniqueId = ""
    · simp only [UnregisterDeviceByRef, if_pos h1]
      exact h
    · simp only [UnregisterDeviceByRef, if_neg h1]
      exact Inv_unregById s dd.uniqueId h

theorem Inv_applyOp (s : DMState) (op : Op) (h : Inv s) : Inv (applyOp s op) := by
  cases op with
  | register d => exact Inv_register s d h
  | unregisterById i => exact Inv_unregById s i h
  | unregisterByRef d => exact Inv_unregByRef s d h
  | unregisterAll => exact Inv_unregAll s h

theorem Inv_initState (prefs0 : Option (List (String × String)))
    (binding0 : List (Nat × Int)) (universes0 : List Int) :
    Inv (initState prefs0 binding0 universes0) := by
  refine ⟨List.nodup_nil, List.nodup_nil, Nat.le_refl _, ?_, ?_, ?_⟩
  · intro u p hp
    cases hp
  · intro u1 u2 p1 p2 hp1
    cases hp1
  · intro a d
    constructor
    · intro hc
      cases hc
    · rintro ⟨u, p, hp, _, _⟩
      cases hp

theorem Inv_runOps (s : DMState) (ops : List Op) (h : Inv s) :
    Inv (runOps s ops) := by
  induction ops generalizing s with
  | nil => exact h
  | cons op rest ih => exact ih _ (Inv_applyOp s op h)

/-! ### An Identity Record, once created, survives every later operation
with its alias intact. -/

theorem register_preserves_record (s : DMState) (d : Option AbstractDevice)
    (u : String) (p : device_alias_pair)
    (hl : alookup s.devices u = some p) :
    ∃ p', alookup (RegisterDevice s d).2.devices u = some p' ∧
      p'.«alias» = p.«alias» := by
  cases d with
  | none => exact ⟨p, hl, rfl⟩
  | some dd =>
    by_cases h1 : dd.uniqueId = ""
    · rw [RegisterDevice_emptyId s dd h1]
      exact ⟨p, hl, rfl⟩
    · cases hc : alookup s.devices dd.uniqueId with
      | none =>
        rw [RegisterDevice_new s dd h1 hc]
        have hu : dd.uniqueId ≠ u := by
          rintro rfl
          rw [hl] at hc
          cases hc
        refine ⟨p, ?_, rfl⟩
        rw [Restore_devices]
        simpa [alookup_ainsert_ne _ _ _ _ hu] using hl
      | some q =>
        obtain ⟨qa, qdev⟩ := q
        cases qdev with
        | none =>
          rw [RegisterDevice_reuse s dd qa h1 hc]
          by_cases hu : dd.uniqueId = u
          · subst hu
            rw [hl] at hc
            cases hc
            refine ⟨⟨qa, some dd⟩, ?_, rfl⟩
            rw [Restore_devices]
            simpa using alookup_ainsert_self s.devices dd.uniqueId ⟨qa, some dd⟩
          · refine ⟨p, ?_, rfl⟩
            rw [Restore_devices]
            simpa [alookup_ainsert_ne _ _ _ _ hu] using hl
        | some d0 =>
          rw [RegisterDevice_dup s dd ⟨qa, some d0⟩ hc (by simp)]
          exact ⟨p, hl, rfl⟩

theorem unregById_preserves_record (s : DMState) (i : String)
    (u : String) (p : device_alias_pair)
    (hl : alookup s.devices u = some p) :
    ∃ p', alookup (UnregisterDeviceById s i).2.devices u = some p' ∧
      p'.«alias» = p.«alias» := by
  cases hc : alookup s.devices i with
  | none =>
    rw [UnregisterDeviceById_absent s i hc]
    exact ⟨p, hl, rfl⟩
  | some q =>
    obtain ⟨qa, qdev⟩ := q
    cases qdev with
    | none =>
      rw [UnregisterDeviceById_inactive s i qa hc]
      exact ⟨p, hl, rfl⟩
    | some d =>
      rw [UnregisterDeviceById_active s i qa d hc]
      by_cases hu : i = u
      · subst hu
        rw [hl] at hc
        cases hc
        refine ⟨⟨qa, none⟩, ?_, rfl⟩
        simp only [Save_devices]
        simpa using alookup_ainsert_self s.devices i ⟨qa, none⟩
      · refine ⟨p, ?_, rfl⟩
        simp only [Save_devices]
        simpa [alookup_ainsert_ne _ _ _ _ hu] using hl

theorem applyOp_preserves_record (s : DMState) (op : Op) (h : Inv s)
    (u : String) (p : device_alias_pair)
    (hl : alookup s.devices u = some p) :
    ∃ p', alookup (applyOp s op).devices u = some p' ∧
      p'.«alias» = p.«alias» := by
  cases op with
  | register d => exact register_preserves_record s d u p hl
  | unregisterById i => exact unregById_preserves_record s i u p hl
  | unregisterByRef d =>
    cases d with
    | none => exact ⟨p, hl, rfl⟩
    | some dd =>
      by_cases h1 : dd.uniqueId = ""
      · simp only [applyOp, UnregisterDeviceByRef, if_pos h1]
        exact ⟨p, hl, rfl⟩
      · simp only [applyOp, UnregisterDeviceByRef, if_neg h1]
        exact unregById_preserves_record s dd.uniqueId u p hl
  | unregisterAll =>
    refine ⟨⟨p.«alias», none⟩, ?_, rfl⟩
    rw [show applyOp s Op.unregisterAll = UnregisterAllDevices s from rfl]
    rw [UnregisterAllDevices_lookup s h.devKeysNodup u, hl]
    rfl

theorem runOps_preserves_record (s : DMState) (ops : List Op) (h : Inv s)
    (u : String) (p : device_alias_pair)
    (hl : alookup s.devices u = some p) :
    ∃ p', alookup (runOps s ops).devices u = some p' ∧
      p'.«alias» = p.«alias» := by
  induction ops generalizing s p with
  | nil => exact ⟨p, hl, rfl⟩
  | cons op rest ih =>
    obtain ⟨p1, hp1, ha1⟩ := applyOp_preserves_record s op h u p hl
    obtain ⟨p2, hp2, ha2⟩ := ih (applyOp s op) (Inv_applyOp s op h) p1 hp1
    exact ⟨p2, hp2, ha2.trans ha1⟩

end LlaModel

namespace LlaModel

/-- Observer: the value the Preference Store holds under `key`
(`none` when the store is NULL or the key is absent). -/
def prefAt (s : DMState) (key : String) : Option String :=
  s.prefs.bind (fun pm => alookup pm key)

theorem Save_eq_loop (s : DMState) (d : AbstractDevice)
    (pm : List (String × String)) (hprefs : s.prefs = some pm) :
    SaveDevicePortPatchings s (some d) = saveLoop s d.ports := by
  unfold SaveDevicePortPatchings
  rw [hprefs]

theorem Restore_eq_loop (s : DMState) (d : AbstractDevice)
    (pm : List (String × String)) (hprefs : s.prefs = some pm) :
    RestoreDevicePortPatchings s (some d) = restoreLoop s pm d.ports := by
  unfold RestoreDevicePortPatchings
  rw [hprefs]

theorem saveLoop_portBinding (l : List AbstractPort) (s : DMState) :
    (saveLoop s l).portBinding = s.portBinding := by
  rw [saveLoop_eq l s]

theorem saveLoop_prefs_nodup (l : List AbstractPort) (s : DMState)
    (pm : List (String × String)) (hprefs : s.prefs = some pm)
    (hnd : (pm.map Prod.fst).Nodup) :
    ∃ pm', (saveLoop s l).prefs = some pm' ∧ (pm'.map Prod.fst).Nodup := by
  induction l generalizing s pm with
  | nil => exact ⟨pm, hprefs, hnd⟩
  | cons p rest ih =>
    by_cases h : p.uid = ""
    · simp only [saveLoop, if_pos h]
      exact ih s pm hprefs hnd
    · simp only [saveLoop, if_neg h]
      cases hb : alookup s.portBinding p.pid with
      | none =>
        refine ih _ (aerase pm p.uid) ?_ (nodup_keys_aerase _ _ hnd)
        simp [hprefs]
      | some k =>
        refine ih _ (ainsert pm p.uid (IntToString k)) ?_
          (nodup_keys_ainsert _ _ _ hnd)
        simp [hprefs]

theorem saveLoop_prefAt_other (l : List AbstractPort) (s : DMState)
    (key : String) (h : ∀ q ∈ l, q.uid = "" ∨ q.uid ≠ key) :
    prefAt (saveLoop s l) key = prefAt s key := by
  induction l generalizing s with
  | nil => rfl
  | cons p rest ih =>
    have hp := h p (List.mem_cons_self p rest)
    by_cases he : p.uid = ""
    · simp only [saveLoop, if_pos he]
      exact ih _ (fun q hq => h q (List.mem_cons_of_mem _ hq))
    · have hne : p.uid ≠ key := hp.resolve_left he
      simp only [saveLoop, if_neg he]
      cases hb : alookup s.portBinding p.pid with
      | none =>
        rw [ih _ (fun q hq => h q (List.mem_cons_of_mem _ hq))]
        cases hpf : s.prefs <;>
          simp [prefAt, hpf, alookup_aerase_ne _ _ _ hne]
      | some k =>
        rw [ih _ (fun q hq => h q (List.mem_cons_of_mem _ hq))]
        cases hpf : s.prefs <;>
          simp [prefAt, hpf, alookup_ainsert_ne _ _ _ _ hne]

theorem saveLoop_prefAt_mem (l : List AbstractPort) (s : DMState)
    (pm : List (String × String)) (P : AbstractPort)
    (hprefs : s.prefs = some pm) (hnd : (pm.map Prod.fst).Nodup)
    (hne : P.uid ≠ "") (hmem : P ∈ l) (hlnd : l.Nodup)
    (huniq : ∀ q ∈ l, q ≠ P → q.uid ≠ P.uid) :
    prefAt (saveLoop s l) P.uid =
      (alookup s.portBinding P.pid).map (fun k => IntToString k) := by
  revert hmem hlnd huniq
  induction l generalizing s pm with
  | nil =>
    intro hmem _ _
    simp at hmem
  | cons q rest ih =>
    intro hmem hlnd huniq
    rcases List.mem_cons.mp hmem with hq | hmem2
    · subst hq
      have hPnotin : P ∉ rest := (List.nodup_cons.mp hlnd).1
      have hothers : ∀ q2 ∈ rest, q2.uid = "" ∨ q2.uid ≠ P.uid := by
        intro q2 hq2
        exact Or.inr (huniq q2 (List.mem_cons_of_mem _ hq2)
          (fun hEq => hPnotin (hEq ▸ hq2)))
      simp only [saveLoop, if_neg hne]
      cases hb : alookup s.portBinding P.pid with
      | none =>
        rw [saveLoop_prefAt_other rest _ P.uid hothers]
        simp [prefAt, hprefs, alookup_aerase_self pm P.uid hnd]
      | some k =>
        rw [saveLoop_prefAt_other rest _ P.uid hothers]
        simp [prefAt, hprefs, alookup_ainsert_self]
    · have hqP : q ≠ P := fun hEq =>
        (List.nodup_cons.mp hlnd).1 (hEq ▸ hmem2)
      have hquid : q.uid ≠ P.uid := huniq q (List.mem_cons_self q rest) hqP
      have hrest : ∀ q2 ∈ rest, q2 ≠ P → q2.uid ≠ P.uid :=
        fun q2 hq2 => huniq q2 (List.mem_cons_of_mem _ hq2)
      by_cases he : q.uid = ""
      · simp only [saveLoop, if_pos he]
        exact ih s pm hprefs hnd hmem2 (List.nodup_cons.mp hlnd).2 hrest
      · simp only [saveLoop, if_neg he]
        cases hb : alookup s.portBinding q.pid with
        | none =>
          exact ih _ (aerase pm q.uid) (by simp [hprefs])
            (nodup_keys_aerase _ _ hnd) hmem2
            (List.nodup_cons.mp hlnd).2 hrest
        | some k =>
          exact ih _ (ainsert pm q.uid (IntToString k)) (by simp [hprefs])
            (nodup_keys_ainsert _ _ _ hnd) hmem2
            (List.nodup_cons.mp hlnd).2 hrest

theorem restoreLoop_portBinding_other (l : List AbstractPort)
    (pm : List (String × String)) (s : DMState) (pid : Nat)
    (h : ∀ q ∈ l, q.pid ≠ pid) :
    alookup (restoreLoop s pm l).portBinding pid = alookup s.portBinding pid := by
  induction l generalizing s with
  | nil => rfl
  | cons q rest ih =>
    have hq : q.pid ≠ pid := h q (List.mem_cons_self q rest)
    have hrest : ∀ q2 ∈ rest, q2.pid ≠ pid :=
      fun q2 hq2 => h q2 (List.mem_cons_of_mem _ hq2)
    by_cases he : q.uid = ""
    · simp only [restoreLoop, if_pos he]
      exact ih s hrest
    · simp only [restoreLoop, if_neg he]
      by_cases h2 : prefGetValue pm q.uid = ""
      · simp only [if_pos h2]
        exact ih s hrest
      · simp only [if_neg h2]
        by_cases h3 : toInt32 (strtol10 (prefGetValue pm q.uid)).1 = 0 ∧
            (strtol10 (prefGetValue pm q.uid)).2
        · simp only [if_pos h3]
          exact ih s hrest
        · simp only [if_neg h3]
          rw [ih _ hrest]
          simp [getUniverseOrCreate, alookup_ainsert_ne _ _ _ _ hq]

theorem restoreLoop_uniRequests_mono (l : List AbstractPort)
    (pm : List (String × String)) (s : DMState) (x : Int)
    (h : x ∈ s.uniRequests) : x ∈ (restoreLoop s pm l).uniRequests := by
  induction l generalizing s with
  | nil => exact h
  | cons q rest ih =>
    by_cases he : q.uid = ""
    · simp only [restoreLoop, if_pos he]
      exact ih s h
    · simp only [restoreLoop, if_neg he]
      by_cases h2 : prefGetValue pm q.uid = ""
      · simp only [if_pos h2]
        exact ih s h
      · simp only [if_neg h2]
        by_cases h3 : toInt32 (strtol10 (prefGetValue pm q.uid)).1 = 0 ∧
            (strtol10 (prefGetValue pm q.uid)).2
        · simp only [if_pos h3]
          exact ih s h
        · simp only [if_neg h3]
          exact ih _ (by simp [getUniverseOrCreate, h])

theorem restoreLoop_universes_mono (l : List AbstractPort)
    (pm : List (String × String)) (s : DMState) (x : Int)
    (h : x ∈ s.universes) : x ∈ (restoreLoop s pm l).universes := by
  induction l generalizing s with
  | nil => exact h
  | cons q rest ih =>
    by_cases he : q.uid = ""
    · simp only [restoreLoop, if_pos he]
      exact ih s h
    · simp only [restoreLoop, if_neg he]
      by_cases h2 : prefGetValue pm q.uid = ""
      · simp only [if_pos h2]
        exact ih s h
      · simp only [if_neg h2]
        by_cases h3 : toInt32 (strtol10 (prefGetValue pm q.uid)).1 = 0 ∧
            (strtol10 (prefGetValue pm q.uid)).2
        · simp only [if_pos h3]
          exact ih s h
        · simp only [if_neg h3]
          refine ih _ ?_
          simp only [getUniverseOrCreate]
          by_cases h4 : toInt32 (strtol10 (prefGetValue pm q.uid)).1 ∈ s.universes <;>
            simp [h4, h]

theorem restoreLoop_binding_mem (l : List AbstractPort)
    (pm : List (String × String)) (s : DMState) (P : AbstractPort)
    (hne : P.uid ≠ "")
    (hval : prefGetValue pm P.uid ≠ "")
    (hskip : ¬(toInt32 (strtol10 (prefGetValue pm P.uid)).1 = 0 ∧
      (strtol10 (prefGetValue pm P.uid)).2))
    (hmem : P ∈ l) (hlnd : l.Nodup)
    (huniq : ∀ q ∈ l, q ≠ P → q.pid ≠ P.pid) :
    alookup (restoreLoop s pm l).portBinding P.pid =
      some (toInt32 (strtol10 (prefGetValue pm P.uid)).1) ∧
    toInt32 (strtol10 (prefGetValue pm P.uid)).1 ∈
      (restoreLoop s pm l).uniRequests ∧
    toInt32 (strtol10 (prefGetValue pm P.uid)).1 ∈
      (restoreLoop s pm l).universes := by
  revert hmem hlnd huniq
  induction l generalizing s with
  | nil =>
    intro hmem _ _
    simp at hmem
  | cons q rest ih =>
    intro hmem hlnd huniq
    rcases List.mem_cons.mp hmem with hq | hmem2
    · subst hq
      have hPnotin : P ∉ rest := (List.nodup_cons.mp hlnd).1
      have hothers : ∀ q2 ∈ rest, q2.pid ≠ P.pid := by
        intro q2 hq2
        exact huniq q2 (List.mem_cons_of_mem _ hq2)
          (fun hEq => hPnotin (hEq ▸ hq2))
      simp only [restoreLoop, if_neg hne, if_neg hval, if_neg hskip]
      refine ⟨?_, ?_, ?_⟩
      · rw [restoreLoop_portBinding_other rest pm _ P.pid hothers]
        simp [getUniverseOrCreate, alookup_ainsert_self]
      · refine restoreLoop_uniRequests_mono rest pm _ _ ?_
        simp [getUniverseOrCreate]
      · refine restoreLoop_universes_mono rest pm _ _ ?_
        simp only [getUniverseOrCreate]
        by_cases h4 : toInt32 (strtol10 (prefGetValue pm P.uid)).1 ∈ s.universes <;>
          simp [h4]
    · have hrest : ∀ q2 ∈ rest, q2 ≠ P → q2.pid ≠ P.pid :=
        fun q2 hq2 => huniq q2 (List.mem_cons_of_mem _ hq2)
      have hrnd : rest.Nodup := (List.nodup_cons.mp hlnd).2
      by_cases he : q.uid = ""
      · simp only [restoreLoop, if_pos he]
        exact ih s hmem2 hrnd hrest
      · simp only [restoreLoop, if_neg he]
        by_cases h2 : prefGetValue pm q.uid = ""
        · simp only [if_pos h2]
          exact ih s hmem2 hrnd hrest
        · simp only [if_neg h2]
          by_cases h3 : toInt32 (strtol10 (prefGetValue pm q.uid)).1 = 0 ∧
              (strtol10 (prefGetValue pm q.uid)).2
          · simp only [if_pos h3]
            exact ih s hmem2 hrnd hrest
          · simp only [if_neg h3]
            exact ih _ hmem2 hrnd hrest

end LlaModel

namespace LlaModel

theorem unregById_failure_iff (s : DMState) (i : String) :
    (UnregisterDeviceById s i).1 = false ↔
      alookup s.devices i = none ∨
      ∃ p, alookup s.devices i = some p ∧ p.device = none := by
  cases hl : alookup s.devices i with
  | none =>
    rw [UnregisterDeviceById_absent s i hl]
    exact ⟨fun _ => Or.inl rfl, fun _ => rfl⟩
  | some p =>
    obtain ⟨pa, pdev⟩ := p
    cases pdev with
    | none =>
      rw [UnregisterDeviceById_inactive s i pa hl]
      exact ⟨fun _ => Or.inr ⟨⟨pa, none⟩, rfl, rfl⟩, fun _ => rfl⟩
    | some d =>
      rw [UnregisterDeviceById_active s i pa d hl]
      constructor
      · intro hc
        simp at hc
      · rintro (hc | ⟨p2, hp2, hp2n⟩)
        · exact Option.noConfusion hc
        · injection hp2 with hp2
          rw [← hp2] at hp2n
          exact Option.noConfusion hp2n

theorem unregById_failure_state (s : DMState) (i : String)
    (h : (UnregisterDeviceById s i).1 = false) :
    (UnregisterDeviceById s i).2 = s := by
  cases hl : alookup s.devices i with
  | none => rw [UnregisterDeviceById_absent s i hl]
  | some p =>
    obtain ⟨pa, pdev⟩ := p
    cases pdev with
    | none => rw [UnregisterDeviceById_inactive s i pa hl]
    | some d =>
      rw [UnregisterDeviceById_active s i pa d hl] at h
      simp at h

theorem unregById_success (s : DMState) (i : String) (a : Nat)
    (d : AbstractDevice) (hand : (s.aliasMap.map Prod.fst).Nodup)
    (hl : alookup s.devices i = some ⟨a, some d⟩) :
    (UnregisterDeviceById s i).1 = true ∧
    (UnregisterDeviceById s i).2.prefs =
      (SaveDevicePortPatchings s (some d)).prefs ∧
    alookup (UnregisterDeviceById s i).2.devices i = some ⟨a, none⟩ ∧
    alookup (UnregisterDeviceById s i).2.aliasMap a = none := by
  rw [UnregisterDeviceById_active s i a d hl]
  refine ⟨rfl, rfl, ?_, ?_⟩
  · simp only [Save_devices]
    exact alookup_ainsert_self _ _ _
  · have : (SaveDevicePortPatchings s (some d)).aliasMap = s.aliasMap :=
      Save_aliasMap s (some d)
    simp only [this]
    exact alookup_aerase_self _ _ hand

/-- C3: `register(device)` fails exactly when the reference is absent, its
unique id is empty, or an Identity Record for that unique id is already
active; every failure leaves the whole manager state (Identity Records,
Alias Index, alias counter, Preference Store) unchanged. -/
theorem C3_register_failure (s : DMState) (d : Option AbstractDevice) :
    ((RegisterDevice s d).1 = false ↔
      d = none ∨ ∃ dd, d = some dd ∧ (dd.uniqueId = "" ∨
        ∃ p, alookup s.devices dd.uniqueId = some p ∧ p.device.isSome)) ∧
    ((RegisterDevice s d).1 = false → (RegisterDevice s d).2 = s) := by
  cases d with
  | none =>
    rw [RegisterDevice_noneDev]
    exact ⟨⟨fun _ => Or.inl rfl, fun _ => rfl⟩, fun _ => rfl⟩
  | some dd =>
    by_cases h1 : dd.uniqueId = ""
    · rw [RegisterDevice_emptyId s dd h1]
      exact ⟨⟨fun _ => Or.inr ⟨dd, rfl, Or.inl h1⟩, fun _ => rfl⟩, fun _ => rfl⟩
    · cases hl : alookup s.devices dd.uniqueId with
      | none =>
        rw [RegisterDevice_new s dd h1 hl]
        constructor
        · constructor
          · intro hc
            simp at hc
          · rintro (hc | ⟨dd2, hdd2, hc⟩)
            · exact Option.noConfusion hc
            · injection hdd2 with hdd2
              subst hdd2
              rcases hc with hc | ⟨p2, hp2, _⟩
              · exact absurd hc h1
              · rw [hl] at hp2
                exact Option.noConfusion hp2
        · intro hc
          simp at hc
      | some p =>
        obtain ⟨pa, pdev⟩ := p
        cases pdev with
        | some d0 =>
          rw [RegisterDevice_dup s dd ⟨pa, some d0⟩ hl (by simp)]
          exact ⟨⟨fun _ => Or.inr ⟨dd, rfl, Or.inr ⟨⟨pa, some d0⟩, hl, by simp⟩⟩,
            fun _ => rfl⟩, fun _ => rfl⟩
        | none =>
          rw [RegisterDevice_reuse s dd pa h1 hl]
          constructor
          · constructor
            · intro hc
              simp at hc
            · rintro (hc | ⟨dd2, hdd2, hc⟩)
              · exact Option.noConfusion hc
              · injection hdd2 with hdd2
                subst hdd2
                rcases hc with hc | ⟨p2, hp2, hp2s⟩
                · exact absurd hc h1
                · rw [hl] at hp2
                  injection hp2 with hp2
                  rw [← hp2] at hp2s
                  simp at hp2s
          · intro hc
            simp at hc

/-- C3 witness: registering an already-active device fails and leaves the
state unchanged. -/
theorem C3_register_failure_witness :
    ((RegisterDevice
        ⟨[("u1", ⟨1, some ⟨1, "u1", "n", []⟩⟩)], [(1, ⟨1, "u1", "n", []⟩)], 2,
          some [], [], [], []⟩
        (some ⟨1, "u1", "n", []⟩)).1 = false) ∧
    ((RegisterDevice
        ⟨[("u1", ⟨1, some ⟨1, "u1", "n", []⟩⟩)], [(1, ⟨1, "u1", "n", []⟩)], 2,
          some [], [], [], []⟩
        (some ⟨1, "u1", "n", []⟩)).2 =
      ⟨[("u1", ⟨1, some ⟨1, "u1", "n", []⟩⟩)], [(1, ⟨1, "u1", "n", []⟩)], 2,
        some [], [], [], []⟩) := by
  have h := C3_register_failure
    ⟨[("u1", ⟨1, some ⟨1, "u1", "n", []⟩⟩)], [(1, ⟨1, "u1", "n", []⟩)], 2,
      some [], [], [], []⟩
    (some ⟨1, "u1", "n", []⟩)
  have hfail := h.1.mpr (Or.inr ⟨⟨1, "u1", "n", []⟩, rfl, Or.inr
    ⟨⟨1, some ⟨1, "u1", "n", []⟩⟩, by decide, by decide⟩⟩)
  exact ⟨hfail, h.2 hfail⟩

end LlaModel

namespace LlaModel

/-- C6: `GetDevice(const string&)` returns the stored record exactly when
the record holds a non-null device, and the sentinel
`{MISSING_DEVICE_ALIAS, NULL}` when the record is absent or inactive; the
alias value 0 is never assigned to any Identity Record. -/
theorem C6_getDeviceById (prefs0 : Option (List (String × String)))
    (binding0 : List (Nat × Int)) (universes0 : List Int) (ops : List Op)
    (s : DMState)
    (hs : s = runOps (initState prefs0 binding0 universes0) ops) :
    (∀ u p, alookup s.devices u = some p → p.device.isSome →
      GetDeviceById s u = p) ∧
    (∀ u, alookup s.devices u = none →
      GetDeviceById s u = ⟨MISSING_DEVICE_ALIAS, none⟩) ∧
    (∀ u p, alookup s.devices u = some p → p.device = none →
      GetDeviceById s u = ⟨MISSING_DEVICE_ALIAS, none⟩) ∧
    (∀ u p, alookup s.devices u = some p →
      p.«alias» ≠ MISSING_DEVICE_ALIAS) := by
  have hInv : Inv s :=
    hs ▸ Inv_runOps _ ops (Inv_initState prefs0 binding0 universes0)
  refine ⟨?_, ?_, ?_, ?_⟩
  · intro u p hp hps
    simp [GetDeviceById, hp, hps]
  · intro u hp
    simp [GetDeviceById, hp]
  · intro u p hp hpn
    simp [GetDeviceById, hp, hpn]
  · intro u p hp
    have h1 := (hInv.aliasBounds u p hp).1
    simp only [FIRST_DEVICE_ALIAS] at h1
    simp only [MISSING_DEVICE_ALIAS]
    omega

/-- C6 witness: after register then unregister the sentinel is returned,
and the retained record's alias is not 0. -/
theorem C6_getDeviceById_witness :
    GetDeviceById (runOps (initState (some []) [] [])
      [Op.register (some ⟨2, "usb-2", "d2", []⟩), Op.unregisterById "usb-2"])
      "usb-2" = ⟨MISSING_DEVICE_ALIAS, none⟩ ∧
    device_alias_pair.«alias» ⟨1, none⟩ ≠ MISSING_DEVICE_ALIAS := by
  have h := C6_getDeviceById (some []) [] []
    [Op.register (some ⟨2, "usb-2", "d2", []⟩), Op.unregisterById "usb-2"]
    _ rfl
  exact ⟨h.2.2.1 "usb-2" ⟨1, none⟩ (by decide) rfl,
    h.2.2.2 "usb-2" ⟨1, none⟩ (by decide)⟩

/-- C8: `DeviceCount` equals the number of distinct unique ids whose
Identity Record currently holds a non-null device. -/
theorem C8_deviceCount (prefs0 : Option (List (String × String)))
    (binding0 : List (Nat × Int)) (universes0 : List Int) (ops : List Op)
    (s : DMState)
    (hs : s = runOps (initState prefs0 binding0 universes0) ops) :
    DeviceCount s =
      ((s.devices.filter (fun kp => kp.2.device.isSome)).map Prod.fst).length ∧
    ((s.devices.filter (fun kp => kp.2.device.isSome)).map Prod.fst).Nodup ∧
    (∀ u, u ∈ (s.devices.filter (fun kp => kp.2.device.isSome)).map Prod.fst ↔
      ∃ p, alookup s.devices u = some p ∧ p.device.isSome) := by
  have hInv : Inv s :=
    hs ▸ Inv_runOps _ ops (Inv_initState prefs0 binding0 universes0)
  refine ⟨by simp [DeviceCount], ?_, ?_⟩
  · exact List.Nodup.sublist
      (List.Sublist.map Prod.fst (List.filter_sublist _)) hInv.devKeysNodup
  · intro u
    constructor
    · intro hu
      obtain ⟨kp, hkp, hfst⟩ := List.mem_map.mp hu
      have hkp2 := List.mem_filter.mp hkp
      obtain ⟨k, p⟩ := kp
      cases hfst
      exact ⟨p, alookup_eq_some_of_mem_nodup hInv.devKeysNodup hkp2.1,
        by simpa using hkp2.2⟩
    · rintro ⟨p, hp, hps⟩
      exact List.mem_map.mpr ⟨(u, p), List.mem_filter.mpr
        ⟨mem_of_alookup_eq_some hp, by simpa using hps⟩, rfl⟩

/-- C8 witness: with one of two registered devices unregistered again, the
count is the number of distinct still-active unique ids. -/
theorem C8_deviceCount_witness :
    DeviceCount (runOps (initState (some []) [] [])
      [Op.register (some ⟨1, "usb-1", "d1", []⟩),
       Op.register (some ⟨2, "usb-2", "d2", []⟩),
       Op.unregisterById "usb-1"]) =
      (((runOps (initState (some []) [] [])
        [Op.register (some ⟨1, "usb-1", "d1", []⟩),
         Op.register (some ⟨2, "usb-2", "d2", []⟩),
         Op.unregisterById "usb-1"]).devices.filter
          (fun kp => kp.2.device.isSome)).map Prod.fst).length ∧
    "usb-2" ∈ ((runOps (initState (some []) [] [])
      [Op.register (some ⟨1, "usb-1", "d1", []⟩),
       Op.register (some ⟨2, "usb-2", "d2", []⟩),
       Op.unregisterById "usb-1"]).devices.filter
        (fun kp => kp.2.device.isSome)).map Prod.fst := by
  have h := C8_deviceCount (some []) [] []
    [Op.register (some ⟨1, "usb-1", "d1", []⟩),
     Op.register (some ⟨2, "usb-2", "d2", []⟩),
     Op.unregisterById "usb-1"] _ rfl
  refine ⟨h.1, (h.2.2 "usb-2").mpr ?_⟩
  exact ⟨⟨2, some ⟨2, "usb-2", "d2", []⟩⟩, by decide, by decide⟩

/-- C9: the Alias Index holds `alias -> device` exactly when some Identity
Record holds that alias with that non-null device, and Identity Records
(hence the key set of the record map) survive every further operation. -/
theorem C9_aliasIndex (prefs0 : Option (List (String × String)))
    (binding0 : List (Nat × Int)) (universes0 : List Int) (ops : List Op)
    (s : DMState)
    (hs : s = runOps (initState prefs0 binding0 universes0) ops) :
    (∀ a d, alookup s.aliasMap a = some d ↔
      ∃ u p, alookup s.devices u = some p ∧ p.«alias» = a ∧
        p.device = some d) ∧
    (∀ more u p, alookup s.devices u = some p →
      ∃ p', alookup (runOps s more).devices u = some p' ∧
        p'.«alias» = p.«alias») := by
  have hInv : Inv s :=
    hs ▸ Inv_runOps _ ops (Inv_initState prefs0 binding0 universes0)
  exact ⟨hInv.aliasMapSpec,
    fun more u p hp => runOps_preserves_record s more hInv u p hp⟩

/-- C9 witness: the Alias Index entry of a registered device is derived
from its record, and the record survives `UnregisterAllDevices`. -/
theorem C9_aliasIndex_witness :
    alookup (runOps (initState (some []) [] [])
      [Op.register (some ⟨1, "usb-1", "d1", []⟩)]).aliasMap 1 =
      some ⟨1, "usb-1", "d1", []⟩ ∧
    ∃ p', alookup (runOps (runOps (initState (some []) [] [])
        [Op.register (some ⟨1, "usb-1", "d1", []⟩)])
        [Op.unregisterAll]).devices "usb-1" = some p' ∧
      p'.«alias» = device_alias_pair.«alias» ⟨1, some ⟨1, "usb-1", "d1", []⟩⟩ := by
  have h := C9_aliasIndex (some []) [] []
    [Op.register (some ⟨1, "usb-1", "d1", []⟩)] _ rfl
  refine ⟨(h.1 1 ⟨1, "usb-1", "d1", []⟩).mpr
    ⟨"usb-1", ⟨1, some ⟨1, "usb-1", "d1", []⟩⟩, by decide, rfl, rfl⟩, ?_⟩
  exact h.2 [Op.unregisterAll] "usb-1" ⟨1, some ⟨1, "usb-1", "d1", []⟩⟩
    (by decide)

/-- C1: aliases are unique per unique id and allocated by the strictly
increasing counter starting at `FIRST_DEVICE_ALIAS`; an alias assigned to
one unique id is never later found on a different unique id; a fresh
registration takes the counter value and bumps the counter; a
re-registration reuses the record's original alias. -/
theorem C1_alias_discipline (prefs0 : Option (List (String × String)))
    (binding0 : List (Nat × Int)) (universes0 : List Int) (ops : List Op)
    (s : DMState)
    (hs : s = runOps (initState prefs0 binding0 universes0) ops) :
    (∀ u1 u2 p1 p2, alookup s.devices u1 = some p1 →
      alookup s.devices u2 = some p2 → p1.«alias» = p2.«alias» → u1 = u2) ∧
    (∀ u p, alookup s.devices u = some p →
      FIRST_DEVICE_ALIAS ≤ p.«alias» ∧ p.«alias» < s.nextAlias) ∧
    (∀ d : AbstractDevice, d.uniqueId ≠ "" →
      alookup s.devices d.uniqueId = none →
      (RegisterDevice s (some d)).1 = true ∧
      alookup (RegisterDevice s (some d)).2.devices d.uniqueId =
        some ⟨s.nextAlias, some d⟩ ∧
      (RegisterDevice s (some d)).2.nextAlias = s.nextAlias + 1) ∧
    (∀ more u p, alookup s.devices u = some p →
      ∃ p', alookup (runOps s more).devices u = some p' ∧
        p'.«alias» = p.«alias») ∧
    (∀ more u1 u2 p1 p2, alookup s.devices u1 = some p1 →
      alookup (runOps s more).devices u2 = some p2 →
      p2.«alias» = p1.«alias» → u2 = u1) ∧
    (∀ (d : AbstractDevice) (a : Nat), d.uniqueId ≠ "" →
      alookup s.devices d.uniqueId = some ⟨a, none⟩ →
      (RegisterDevice s (some d)).1 = true ∧
      alookup (RegisterDevice s (some d)).2.devices d.uniqueId =
        some ⟨a, some d⟩) := by
  have hInv : Inv s :=
    hs ▸ Inv_runOps _ ops (Inv_initState prefs0 binding0 universes0)
  refine ⟨hInv.aliasInj, hInv.aliasBounds, ?_, ?_, ?_, ?_⟩
  · intro d h1 hl
    rw [RegisterDevice_new s d h1 hl]
    refine ⟨rfl, ?_, ?_⟩
    · rw [Restore_devices]
      simpa using alookup_ainsert_self s.devices d.uniqueId
        ⟨s.nextAlias, some d⟩
    · rw [Restore_nextAlias]
  · intro more u p hp
    exact runOps_preserves_record s more hInv u p hp
  · intro more u1 u2 p1 p2 hp1 hp2 hEq
    obtain ⟨p1', hp1', ha1⟩ := runOps_preserves_record s more hInv u1 p1 hp1
    have hInv2 : Inv (runOps s more) := Inv_runOps s more hInv
    exact hInv2.aliasInj u2 u1 p2 p1' hp2 hp1' (by rw [hEq, ← ha1])
  · intro d a h1 hl
    rw [RegisterDevice_reuse s d a h1 hl]
    refine ⟨rfl, ?_⟩
    rw [Restore_devices]
    simpa using alookup_ainsert_self s.devices d.uniqueId ⟨a, some d⟩

/-- C1 witness: after registering usb-1 and usb-2 and unregistering usb-1,
re-registering usb-1 succeeds and reuses alias 1. -/
theorem C1_alias_discipline_witness :
    (RegisterDevice (runOps (initState (some []) [] [])
      [Op.register (some ⟨1, "usb-1", "d1", []⟩),
       Op.register (some ⟨2, "usb-2", "d2", []⟩),
       Op.unregisterById "usb-1"]) (some ⟨1, "usb-1", "d1", []⟩)).1 = true ∧
    alookup (RegisterDevice (runOps (initState (some []) [] [])
      [Op.register (some ⟨1, "usb-1", "d1", []⟩),
       Op.register (some ⟨2, "usb-2", "d2", []⟩),
       Op.unregisterById "usb-1"]) (some ⟨1, "usb-1", "d1", []⟩)).2.devices
      "usb-1" = some ⟨1, some ⟨1, "usb-1", "d1", []⟩⟩ := by
  have h := C1_alias_discipline (some []) [] []
    [Op.register (some ⟨1, "usb-1", "d1", []⟩),
     Op.register (some ⟨2, "usb-2", "d2", []⟩),
     Op.unregisterById "usb-1"] _ rfl
  exact h.2.2.2.2.2 ⟨1, "usb-1", "d1", []⟩ 1 (by decide) (by decide)

/-- C4: unregistration fails exactly when no active record matches (or the
reference is absent or carries an empty unique id), leaving the state
unchanged; on success the active device's patchings are saved first, the
alias is removed from the Alias Index, and the record is retained with its
alias and a cleared device field. -/
theorem C4_unregister (prefs0 : Option (List (String × String)))
    (binding0 : List (Nat × Int)) (universes0 : List Int) (ops : List Op)
    (s : DMState)
    (hs : s = runOps (initState prefs0 binding0 universes0) ops) :
    (∀ i, ((UnregisterDeviceById s i).1 = false ↔
        alookup s.devices i = none ∨
        ∃ p, alookup s.devices i = some p ∧ p.device = none) ∧
      ((UnregisterDeviceById s i).1 = false →
        (UnregisterDeviceById s i).2 = s) ∧
      (∀ a d, alookup s.devices i = some ⟨a, some d⟩ →
        (UnregisterDeviceById s i).1 = true ∧
        (UnregisterDeviceById s i).2.prefs =
          (SaveDevicePortPatchings s (some d)).prefs ∧
        alookup (UnregisterDeviceById s i).2.devices i = some ⟨a, none⟩ ∧
        alookup (UnregisterDeviceById s i).2.aliasMap a = none)) ∧
    (UnregisterDeviceByRef s none = (false, s)) ∧
    (∀ dd : AbstractDevice, dd.uniqueId = "" →
      UnregisterDeviceByRef s (some dd) = (false, s)) ∧
    (∀ dd : AbstractDevice, dd.uniqueId ≠ "" →
      UnregisterDeviceByRef s (some dd) = UnregisterDeviceById s dd.uniqueId) := by
  have hInv : Inv s :=
    hs ▸ Inv_runOps _ ops (Inv_initState prefs0 binding0 universes0)
  refine ⟨?_, rfl, ?_, ?_⟩
  · intro i
    exact ⟨unregById_failure_iff s i, unregById_failure_state s i,
      fun a d hl => unregById_success s i a d hInv.aliasKeysNodup hl⟩
  · intro dd h1
    simp [UnregisterDeviceByRef, h1]
  · intro dd h1
    simp [UnregisterDeviceByRef, h1]

/-- C4 witness: unregistering a registered device succeeds, keeps the
record with its alias and a null device, and drops the alias entry. -/
theorem C4_unregister_witness :
    (UnregisterDeviceById (runOps (initState (some []) [] [])
      [Op.register (some ⟨1, "usb-1", "d1", []⟩)]) "usb-1").1 = true ∧
    alookup (UnregisterDeviceById (runOps (initState (some []) [] [])
      [Op.register (some ⟨1, "usb-1", "d1", []⟩)]) "usb-1").2.devices
      "usb-1" = some ⟨1, none⟩ ∧
    alookup (UnregisterDeviceById (runOps (initState (some []) [] [])
      [Op.register (some ⟨1, "usb-1", "d1", []⟩)]) "usb-1").2.aliasMap 1 =
      none := by
  have h := C4_unregister (some []) [] []
    [Op.register (some ⟨1, "usb-1", "d1", []⟩)] _ rfl
  have h2 := (h.1 "usb-1").2.2 1 ⟨1, "usb-1", "d1", []⟩ (by decide)
  exact ⟨h2.1, h2.2.2.1, h2.2.2.2⟩

end LlaModel

namespace LlaModel

/-- C7: saving patchings stores each bound port's universe id as a decimal
string under the port's unique id, removes the key of an unbound port
(also when the key was never present), leaves every key not belonging to a
non-empty port uid of the device untouched, and bind-save-unbind-save
leaves no key for the port. -/
theorem C7_savePatchings (s : DMState) (d : AbstractDevice)
    (pm : List (String × String)) (P : AbstractPort)
    (hprefs : s.prefs = some pm) (hnd : (pm.map Prod.fst).Nodup)
    (hP : P ∈ d.ports) (hPuid : P.uid ≠ "") (hpnd : d.ports.Nodup)
    (huniq : ∀ Q ∈ d.ports, Q ≠ P → Q.uid ≠ P.uid) :
    (∃ pm', (SaveDevicePortPatchings s (some d)).prefs = some pm' ∧
      (pm'.map Prod.fst).Nodup ∧
      (alookup s.portBinding P.pid = none → P.uid ∉ pm'.map Prod.fst) ∧
      (∀ k : Int, alookup s.portBinding P.pid = some k →
        alookup pm' P.uid = some (IntToString k))) ∧
    (∀ key, (∀ Q ∈ d.ports, Q.uid = "" ∨ Q.uid ≠ key) →
      prefAt (SaveDevicePortPatchings s (some d)) key = prefAt s key) ∧
    (∀ s2 : DMState, s2.prefs = (SaveDevicePortPatchings s (some d)).prefs →
      alookup s2.portBinding P.pid = none →
      ∃ pm2, (SaveDevicePortPatchings s2 (some d)).prefs = some pm2 ∧
        P.uid ∉ pm2.map Prod.fst) := by
  rw [Save_eq_loop s d pm hprefs]
  obtain ⟨pm', hpm', hnd'⟩ := saveLoop_prefs_nodup d.ports s pm hprefs hnd
  have hmemEq := saveLoop_prefAt_mem d.ports s pm P hprefs hnd hPuid hP hpnd
    huniq
  have hpa : prefAt (saveLoop s d.ports) P.uid = alookup pm' P.uid := by
    simp [prefAt, hpm']
  rw [hpa] at hmemEq
  refine ⟨⟨pm', hpm', hnd', ?_, ?_⟩, ?_, ?_⟩
  · intro hb
    rw [hb] at hmemEq
    exact not_mem_keys_of_alookup_eq_none (by simpa using hmemEq)
  · intro k hb
    rw [hb] at hmemEq
    simpa using hmemEq
  · intro key hkey
    exact saveLoop_prefAt_other d.ports s key hkey
  · intro s2 hs2 hb2
    rw [hpm'] at hs2
    rw [Save_eq_loop s2 d pm' hs2]
    obtain ⟨pm2, hpm2, hnd2⟩ := saveLoop_prefs_nodup d.ports s2 pm' hs2 hnd'
    have hmem2 := saveLoop_prefAt_mem d.ports s2 pm' P hs2 hnd' hPuid hP hpnd
      huniq
    rw [hb2] at hmem2
    have hpa2 : prefAt (saveLoop s2 d.ports) P.uid = alookup pm2 P.uid := by
      simp [prefAt, hpm2]
    rw [hpa2] at hmem2
    exact ⟨pm2, hpm2, not_mem_keys_of_alookup_eq_none (by simpa using hmem2)⟩

/-- C7 witness: a port bound to universe 7 has "7" stored under its key. -/
theorem C7_savePatchings_witness :
    ∃ pm', (SaveDevicePortPatchings
      ⟨[("usb-1", ⟨1, some ⟨1, "usb-1", "d1", [⟨10, "portA"⟩]⟩⟩)],
       [(1, ⟨1, "usb-1", "d1", [⟨10, "portA"⟩]⟩)], 2, some [], [(10, 7)],
       [], []⟩
      (some ⟨1, "usb-1", "d1", [⟨10, "portA"⟩]⟩)).prefs = some pm' ∧
      alookup pm' "portA" = some (IntToString 7) := by
  have h := C7_savePatchings
    ⟨[("usb-1", ⟨1, some ⟨1, "usb-1", "d1", [⟨10, "portA"⟩]⟩⟩)],
     [(1, ⟨1, "usb-1", "d1", [⟨10, "portA"⟩]⟩)], 2, some [], [(10, 7)],
     [], []⟩
    ⟨1, "usb-1", "d1", [⟨10, "portA"⟩]⟩ [] ⟨10, "portA"⟩ rfl (by decide)
    (by decide) (by decide) (by decide) (by decide)
  obtain ⟨⟨pm', h1, _, _, h4⟩, _, _⟩ := h
  exact ⟨pm', h1, h4 7 (by decide)⟩

/-- C10: a stored value of exactly "0" is not treated as reserved or
malformed: restoring calls `GetUniverseOrCreate 0` and binds the port to
the returned universe. -/
theorem C10_restore_zero (s : DMState) (d : AbstractDevice)
    (pm : List (String × String)) (P : AbstractPort)
    (hprefs : s.prefs = some pm)
    (hP : P ∈ d.ports) (hPuid : P.uid ≠ "") (hpnd : d.ports.Nodup)
    (huniq : ∀ Q ∈ d.ports, Q ≠ P → Q.pid ≠ P.pid)
    (hv : prefGetValue pm P.uid = "0") :
    alookup (RestoreDevicePortPatchings s (some d)).portBinding P.pid =
      some 0 ∧
    (0 : Int) ∈ (RestoreDevicePortPatchings s (some d)).uniRequests ∧
    (0 : Int) ∈ (RestoreDevicePortPatchings s (some d)).universes := by
  rw [Restore_eq_loop s d pm hprefs]
  have h := restoreLoop_binding_mem d.ports pm s P hPuid
    (by rw [hv]; decide) (by rw [hv]; decide) hP hpnd huniq
  rw [hv] at h
  have h0 : toInt32 (strtol10 "0").1 = 0 := by decide
  rw [h0] at h
  exact h

/-- C10 witness: with `{"portA": "0"}` stored, the port is bound to
universe 0 and universe 0 is requested from the store. -/
theorem C10_restore_zero_witness :
    alookup (RestoreDevicePortPatchings
      (initState (some [("portA", "0")]) [] [])
      (some ⟨1, "usb-1", "d1", [⟨10, "portA"⟩]⟩)).portBinding 10 = some 0 ∧
    (0 : Int) ∈ (RestoreDevicePortPatchings
      (initState (some [("portA", "0")]) [] [])
      (some ⟨1, "usb-1", "d1", [⟨10, "portA"⟩]⟩)).uniRequests := by
  have h := C10_restore_zero (initState (some [("portA", "0")]) [] [])
    ⟨1, "usb-1", "d1", [⟨10, "portA"⟩]⟩ [("portA", "0")] ⟨10, "portA"⟩ rfl
    (by decide) (by decide) (by decide) (by decide) (by decide)
  exact ⟨h.1, h.2.1⟩

/-- C2: a port patched to universe 7 whose device is unregistered and then
registered again ends up bound to universe 7 again, requested from the
Universe Store via `GetUniverseOrCreate`. -/
theorem C2_patch_roundTrip (s : DMState) (d : AbstractDevice)
    (P : AbstractPort) (a : Nat) (pm : List (String × String))
    (hprefs : s.prefs = some pm) (hnd : (pm.map Prod.fst).Nodup)
    (hrec : alookup s.devices d.uniqueId = some ⟨a, some d⟩)
    (hduid : d.uniqueId ≠ "")
    (hP : P ∈ d.ports) (hPuid : P.uid ≠ "") (hpnd : d.ports.Nodup)
    (huniq : ∀ Q ∈ d.ports, Q ≠ P → Q.uid ≠ P.uid ∧ Q.pid ≠ P.pid)
    (hbound : alookup s.portBinding P.pid = some 7) :
    (UnregisterDeviceByRef s (some d)).1 = true ∧
    (RegisterDevice (UnregisterDeviceByRef s (some d)).2 (some d)).1 = true ∧
    alookup (RegisterDevice (UnregisterDeviceByRef s (some d)).2
      (some d)).2.portBinding P.pid = some 7 ∧
    (7 : Int) ∈ (RegisterDevice (UnregisterDeviceByRef s (some d)).2
      (some d)).2.uniRequests ∧
    (7 : Int) ∈ (RegisterDevice (UnregisterDeviceByRef s (some d)).2
      (some d)).2.universes := by
  have hbr : UnregisterDeviceByRef s (some d) =
      UnregisterDeviceById s d.uniqueId := by
    simp [UnregisterDeviceByRef, hduid]
  have hsave : SaveDevicePortPatchings s (some d) = saveLoop s d.ports :=
    Save_eq_loop s d pm hprefs
  obtain ⟨pm1, hpm1, hnd1⟩ := saveLoop_prefs_nodup d.ports s pm hprefs hnd
  have hval : alookup pm1 P.uid = some (IntToString 7) := by
    have hm := saveLoop_prefAt_mem d.ports s pm P hprefs hnd hPuid hP hpnd
      (fun Q hQ hQP => (huniq Q hQ hQP).1)
    rw [hbound] at hm
    simpa [prefAt, hpm1] using hm
  have h1 : (UnregisterDeviceById s d.uniqueId).1 = true := by
    rw [UnregisterDeviceById_active s d.uniqueId a d hrec]
  have hlook1 : alookup (UnregisterDeviceById s d.uniqueId).2.devices
      d.uniqueId = some ⟨a, none⟩ := by
    rw [UnregisterDeviceById_active s d.uniqueId a d hrec]
    simp only [Save_devices]
    exact alookup_ainsert_self _ _ _
  have hprefs1 : (UnregisterDeviceById s d.uniqueId).2.prefs = some pm1 := by
    rw [UnregisterDeviceById_active s d.uniqueId a d hrec]
    show (SaveDevicePortPatchings s (some d)).prefs = some pm1
    rw [hsave]
    exact hpm1
  have hreg := RegisterDevice_reuse (UnregisterDeviceById s d.uniqueId).2 d a
    hduid hlook1
  have hI7 : IntToString 7 = "7" := by decide
  have hv7 : prefGetValue pm1 P.uid = "7" := by
    simp [prefGetValue, hval, hI7]
  have hprefs2 :
      ({ (UnregisterDeviceById s d.uniqueId).2 with
        devices := ainsert (UnregisterDeviceById s d.uniqueId).2.devices
          d.uniqueId ⟨a, some d⟩,
        aliasMap := ainsert (UnregisterDeviceById s d.uniqueId).2.aliasMap
          a d } : DMState).prefs = some pm1 := hprefs1
  have hrest := Restore_eq_loop _ d pm1 hprefs2
  have hb := restoreLoop_binding_mem d.ports pm1
    ({ (UnregisterDeviceById s d.uniqueId).2 with
      devices := ainsert (UnregisterDeviceById s d.uniqueId).2.devices
        d.uniqueId ⟨a, some d⟩,
      aliasMap := ainsert (UnregisterDeviceById s d.uniqueId).2.aliasMap
        a d } : DMState) P hPuid
    (by rw [hv7]; decide) (by rw [hv7]; decide) hP hpnd
    (fun Q hQ hQP => (huniq Q hQ hQP).2)
  rw [hv7] at hb
  have h7 : toInt32 (strtol10 "7").1 = 7 := by decide
  rw [h7] at hb
  rw [hbr, hreg, hrest]
  exact ⟨h1, rfl, hb.1, hb.2.1, hb.2.2⟩

/-- C2 witness: the round trip at a concrete one-port device patched to
universe 7. -/
theorem C2_patch_roundTrip_witness :
    alookup (RegisterDevice (UnregisterDeviceByRef
      ⟨[("usb-1", ⟨1, some ⟨1, "usb-1", "d1", [⟨10, "portA"⟩]⟩⟩)],
       [(1, ⟨1, "usb-1", "d1", [⟨10, "portA"⟩]⟩)], 2, some [], [(10, 7)],
       [], []⟩
      (some ⟨1, "usb-1", "d1", [⟨10, "portA"⟩]⟩)).2
      (some ⟨1, "usb-1", "d1", [⟨10, "portA"⟩]⟩)).2.portBinding 10 =
      some 7 ∧
    (7 : Int) ∈ (RegisterDevice (UnregisterDeviceByRef
      ⟨[("usb-1", ⟨1, some ⟨1, "usb-1", "d1", [⟨10, "portA"⟩]⟩⟩)],
       [(1, ⟨1, "usb-1", "d1", [⟨10, "portA"⟩]⟩)], 2, some [], [(10, 7)],
       [], []⟩
      (some ⟨1, "usb-1", "d1", [⟨10, "portA"⟩]⟩)).2
      (some ⟨1, "usb-1", "d1", [⟨10, "portA"⟩]⟩)).2.uniRequests := by
  have h := C2_patch_roundTrip
    ⟨[("usb-1", ⟨1, some ⟨1, "usb-1", "d1", [⟨10, "portA"⟩]⟩⟩)],
     [(1, ⟨1, "usb-1", "d1", [⟨10, "portA"⟩]⟩)], 2, some [], [(10, 7)],
     [], []⟩
    ⟨1, "usb-1", "d1", [⟨10, "portA"⟩]⟩ ⟨10, "portA"⟩ 1 [] rfl (by decide)
    (by decide) (by decide) (by decide) (by decide) (by decide) (by decide)
    (by decide)
  exact ⟨h.2.2.1, h.2.2.2.1⟩

/-- C5: under C-standard `strtol`/`errno` semantics a non-empty stored
value with no digits, such as "abc", parses to 0 with `errno` still 0, so
`RestoreDevicePortPatchings` does not skip it: it requests universe 0 from
the store and binds the port to it. -/
theorem C5_malformed_value_not_skipped :
    strtol10 "abc" = (0, false) ∧
    (RegisterDevice (initState (some [("portA", "abc")]) [] [])
      (some ⟨1, "usb-1", "d1", [⟨10, "portA"⟩]⟩)).1 = true ∧
    alookup (RegisterDevice (initState (some [("portA", "abc")]) [] [])
      (some ⟨1, "usb-1", "d1", [⟨10, "portA"⟩]⟩)).2.portBinding 10 =
      some 0 ∧
    (0 : Int) ∈ (RegisterDevice (initState (some [("portA", "abc")]) [] [])
      (some ⟨1, "usb-1", "d1", [⟨10, "portA"⟩]⟩)).2.uniRequests := by
  refine ⟨by decide, rfl, by decide, by decide⟩

end LlaModel
